import Mathlib

/-!
# Patch-and-transform to pipeline conversion

A shallow embedding of `cmd/crank/beta/convert/pipelinecomposition/converter.go`.

Conventions of the embedding:

* a Go pointer `*T` is `Option T` (`none` is the nil pointer);
* a Go slice `[]T` is `List T`; the converter observes slices only through
  `len` and `range`, which do not tell a nil slice from an empty one;
* a Go string-typed enumeration is `String`, so that the comparisons with the
  empty string made by the converter keep their meaning;
* a function that can dereference a nil pointer returns `Option`, and `none`
  stands for the run-time panic;
* `time.Now()` is an explicit argument.
-/

set_option linter.dupNamespace false

namespace Pipelinecomposition

/-- The list of the results of `f` on the elements of a list, in order, when every call returns;
`none` as soon as one call panics. -/
def mapOpt {α β : Type} (f : α → Option β) : List α → Option (List β)
  | [] => some []
  | a :: l =>
    match f a with
    | none => none
    | some b => (mapOpt f l).map fun out => b :: out

/-! ## Types of the legacy API (package `v1` and `commonv1`) -/

abbrev PatchType := String
abbrev TransformType := String
abbrev MathTransformType := String
abbrev StringTransformType := String
abbrev ConnectionDetailType := String
abbrev CompositionMode := String
abbrev FromFieldPathPolicy := String

/-- Modelled from the spec: the constant `v1.PatchTypeFromCompositeFieldPath`, declared outside the
converter; the "from-composite-field-path" default of the built-in engine. -/
def PatchTypeFromCompositeFieldPath : PatchType := "FromCompositeFieldPath"

/-- Modelled from the spec: the constant `v1.TransformTypeMath`, declared outside the converter. -/
def TransformTypeMath : TransformType := "math"

/-- Modelled from the spec: the constant `v1.TransformTypeString`, declared outside the converter. -/
def TransformTypeString : TransformType := "string"

/-- Modelled from the spec: the constant `v1.MathTransformTypeMultiply`, declared outside the converter. -/
def MathTransformTypeMultiply : MathTransformType := "Multiply"

/-- Modelled from the spec: the constant `v1.MathTransformTypeClampMin`, declared outside the converter. -/
def MathTransformTypeClampMin : MathTransformType := "ClampMin"

/-- Modelled from the spec: the constant `v1.MathTransformTypeClampMax`, declared outside the converter. -/
def MathTransformTypeClampMax : MathTransformType := "ClampMax"

/-- Modelled from the spec: the constant `v1.StringTransformTypeFormat`, declared outside the converter. -/
def StringTransformTypeFormat : StringTransformType := "Format"

/-- Modelled from the spec: the constant `v1.StringTransformTypeConvert`, declared outside the converter. -/
def StringTransformTypeConvert : StringTransformType := "Convert"

/-- Modelled from the spec: the constant `v1.StringTransformTypeRegexp`, declared outside the converter. -/
def StringTransformTypeRegexp : StringTransformType := "Regexp"

/-- Modelled from the spec: the constant `v1.ConnectionDetailTypeFromConnectionSecretKey`, declared
outside the converter. -/
def ConnectionDetailTypeFromConnectionSecretKey : ConnectionDetailType := "FromConnectionSecretKey"

/-- Modelled from the spec: the constant `v1.ConnectionDetailTypeFromFieldPath`, declared outside the
converter. -/
def ConnectionDetailTypeFromFieldPath : ConnectionDetailType := "FromFieldPath"

/-- Modelled from the spec: the constant `v1.ConnectionDetailTypeFromValue`, declared outside the
converter. -/
def ConnectionDetailTypeFromValue : ConnectionDetailType := "FromValue"

/-- Modelled from the spec: the constant `v1.CompositionModePipeline`, declared outside the converter. -/
def CompositionModePipeline : CompositionMode := "Pipeline"

/-- Modelled from the spec: the type `commonv1.MergeOptions`, declared outside the converter; the two
optional flags of the legacy merge policy. -/
structure MergeOptions where
  KeepMapValues : Option Bool
  AppendSlice : Option Bool
  deriving DecidableEq, Repr

/-- Modelled from the spec: the type `v1.PatchPolicy`, declared outside the converter; the legacy
policy of a patch. -/
structure LegacyPatchPolicy where
  FromFieldPath : Option FromFieldPathPolicy
  MergeOptions : Option MergeOptions
  deriving DecidableEq, Repr

/-- Modelled from the spec: the type `v1.MathTransform`, declared outside the converter. -/
structure MathTransform where
  Type_ : MathTransformType
  Multiply : Option Int
  ClampMin : Option Int
  ClampMax : Option Int
  deriving DecidableEq, Repr

/-- Modelled from the spec: the type `v1.StringTransform`, declared outside the converter; the
sub-objects the converter only tests for presence are kept as uninterpreted text. -/
structure StringTransform where
  Type_ : StringTransformType
  Format : Option String
  Convert : Option String
  Trim : Option String
  Join : Option String
  Regexp : Option String
  deriving DecidableEq, Repr

/-- Modelled from the spec: the type `v1.Transform`, declared outside the converter; `Math` and
`String_` are pointers in the source, the variants the converter never reads are uninterpreted. -/
structure Transform where
  Type_ : TransformType
  Math : Option MathTransform
  Map : Option String
  Match : Option String
  String_ : Option StringTransform
  Convert : Option String
  deriving DecidableEq, Repr

/-- Modelled from the spec: the type `v1.Patch`, declared outside the converter. -/
structure LegacyPatch where
  Type_ : PatchType
  FromFieldPath : Option String
  Combine : Option String
  ToFieldPath : Option String
  PatchSetName : Option String
  Transforms : List Transform
  Policy : Option LegacyPatchPolicy
  deriving DecidableEq, Repr

/-- Modelled from the spec: the type `v1.EnvironmentPatch`, declared outside the converter. -/
structure LegacyEnvironmentPatch where
  Type_ : PatchType
  FromFieldPath : Option String
  Combine : Option String
  ToFieldPath : Option String
  Transforms : List Transform
  Policy : Option LegacyPatchPolicy
  deriving DecidableEq, Repr

/-- Modelled from the spec: the type `v1.PatchSet`, declared outside the converter. -/
structure LegacyPatchSet where
  Name : String
  Patches : List LegacyPatch
  deriving DecidableEq, Repr

/-- Modelled from the spec: the type `v1.ConnectionDetail`, declared outside the converter. -/
structure ConnectionDetail where
  Name : Option String
  Type_ : Option ConnectionDetailType
  FromConnectionSecretKey : Option String
  FromFieldPath : Option String
  Value : Option String
  deriving DecidableEq, Repr

/-- Modelled from the spec: the type `v1.ComposedTemplate`, declared outside the converter; the base
object and the readiness checks are uninterpreted. -/
structure LegacyComposedTemplate where
  Name : Option String
  Base : String
  Patches : List LegacyPatch
  ConnectionDetails : List ConnectionDetail
  ReadinessChecks : List String
  deriving DecidableEq, Repr

/-- Modelled from the spec: the type `v1.EnvironmentConfiguration`, declared outside the converter;
default data, sources and policy are uninterpreted. -/
structure EnvironmentConfiguration where
  DefaultData : List (String × String)
  EnvironmentConfigs : List String
  Patches : List LegacyEnvironmentPatch
  Policy : Option String
  deriving DecidableEq, Repr

/-! ## Types of the function input (package `pipelinecomposition`) -/

/-- Modelled from the spec: the type `ToFieldPathPolicy` and its constants, declared outside the
converter. `Replace` is never produced by the converter: a nil policy stands for it. -/
inductive ToFieldPathPolicy where
  | Replace
  | MergeObjects
  | MergeObjectsAppendArrays
  | ForceMergeObjects
  | ForceMergeObjectsAppendArrays
  deriving DecidableEq, Repr

/-- Modelled from the spec: the type `PatchPolicy` of the function input, declared outside the
converter. -/
structure PatchPolicy where
  FromFieldPath : Option FromFieldPathPolicy
  ToFieldPath : Option ToFieldPathPolicy
  deriving DecidableEq, Repr

/-- Modelled from the spec: the type `Patch` of the function input, declared outside the converter;
it embeds the legacy patch and adds the migrated policy. -/
structure Patch where
  Patch : LegacyPatch
  Policy : Option PatchPolicy
  deriving DecidableEq, Repr

/-- Modelled from the spec: the type `EnvironmentPatch` of the function input, declared outside the
converter; it embeds the legacy environment patch and adds the migrated policy. -/
structure EnvironmentPatch where
  EnvironmentPatch : LegacyEnvironmentPatch
  Policy : Option PatchPolicy
  deriving DecidableEq, Repr

/-- Modelled from the spec: the type `PatchSet` of the function input, declared outside the
converter. -/
structure PatchSet where
  Name : String
  Patches : List Patch
  deriving DecidableEq, Repr

/-- Modelled from the spec: the type `ComposedTemplate` of the function input, declared outside the
converter; it embeds the legacy template and adds the migrated patches. -/
structure ComposedTemplate where
  ComposedTemplate : LegacyComposedTemplate
  Patches : List Patch
  deriving DecidableEq, Repr

/-- Modelled from the spec: the type `Environment` of the function input, declared outside the
converter. -/
structure Environment where
  Patches : List EnvironmentPatch
  deriving DecidableEq, Repr

/-! ## Merge policy migration -/

/-- Source: `isNilOrFalse`. -/
def isNilOrFalse (b : Option Bool) : Bool :=
  match b with
  | none => true
  | some v => !v

/-- Source: `isTrue`. -/
def isTrue (b : Option Bool) : Bool :=
  match b with
  | none => false
  | some v => v

/-- Source: `migrateMergeOptions`. -/
def migrateMergeOptions (mo : Option MergeOptions) : Option ToFieldPathPolicy :=
  match mo with
  | none => none
  | some mo =>
    if isTrue mo.KeepMapValues then
      if isNilOrFalse mo.AppendSlice then
        some ToFieldPathPolicy.MergeObjects
      else
        some ToFieldPathPolicy.MergeObjectsAppendArrays
    else if isTrue mo.AppendSlice then
      some ToFieldPathPolicy.ForceMergeObjectsAppendArrays
    else
      some ToFieldPathPolicy.ForceMergeObjects

/-- Source: `migratePatchPolicy`. The argument is a non-nil pointer at both call sites. -/
def migratePatchPolicy (policy : LegacyPatchPolicy) : Option PatchPolicy :=
  let to_ := migrateMergeOptions policy.MergeOptions
  if to_ = none ∧ policy.FromFieldPath = none then
    none
  else
    some { FromFieldPath := policy.FromFieldPath, ToFieldPath := to_ }

/-- Source: the body of the loop of `migratePatches`. -/
def migratePatch (patch : LegacyPatch) : Patch :=
  match patch.Policy with
  | some policy => { Patch := { patch with Policy := none }, Policy := migratePatchPolicy policy }
  | none => { Patch := patch, Policy := none }

/-- Source: `migratePatches`. -/
def migratePatches (patches : List LegacyPatch) : List Patch :=
  patches.foldl (fun newPatches patch => newPatches ++ [migratePatch patch]) []

/-- Source: the body of the loop of `migrateEnvPatches`. -/
def migrateEnvPatch (envPatch : LegacyEnvironmentPatch) : EnvironmentPatch :=
  match envPatch.Policy with
  | some policy =>
    { EnvironmentPatch := { envPatch with Policy := none }, Policy := migratePatchPolicy policy }
  | none => { EnvironmentPatch := envPatch, Policy := none }

/-- Source: `migrateEnvPatches`. -/
def migrateEnvPatches (envPatches : List LegacyEnvironmentPatch) : List EnvironmentPatch :=
  envPatches.foldl (fun newEnvPatches envPatch => newEnvPatches ++ [migrateEnvPatch envPatch]) []

/-! ## Required fields of transforms, patches, connection details and templates -/

/-- Source: `getMathTransformType`. The source reads `tt.Math.Type` without a nil check, so an absent
`Math` sub-object is the panic `none`. -/
def getMathTransformType (tt : Transform) : Option MathTransformType :=
  match tt.Math with
  | none => none
  | some m =>
    if m.Type_ ≠ "" then some m.Type_
    else if m.ClampMin ≠ none then some MathTransformTypeClampMin
    else if m.ClampMax ≠ none then some MathTransformTypeClampMax
    else if m.Multiply ≠ none then some MathTransformTypeMultiply
    else some ""

/-- Source: `getStringTransformType`. The source reads `tt.String.Type` without a nil check, so an
absent `String` sub-object is the panic `none`. -/
def getStringTransformType (tt : Transform) : Option StringTransformType :=
  match tt.String_ with
  | none => none
  | some s =>
    if s.Type_ ≠ "" then some s.Type_
    else if s.Format ≠ none then some StringTransformTypeFormat
    else if s.Convert ≠ none then some StringTransformTypeConvert
    else if s.Regexp ≠ none then some StringTransformTypeRegexp
    else some ""

/-- Source: the first `if` of `setTransformTypeRequiredFields` (lines 359-366): an empty `Type` is
inferred from the populated sub-object, `String` winning over `Math`. -/
def inferTransformType (tt : Transform) : Transform :=
  if tt.Type_ = "" then
    let tt1 := if tt.Math ≠ none then { tt with Type_ := TransformTypeMath } else tt
    if tt1.String_ ≠ none then { tt1 with Type_ := TransformTypeString } else tt1
  else tt

/-- Source: the second `if` of `setTransformTypeRequiredFields` (lines 367-369). The condition
`tt.Type == Math && tt.Math.Type == ""` dereferences `tt.Math` once the first conjunct holds. -/
def setMathSubType (tt : Transform) : Option Transform :=
  if tt.Type_ = TransformTypeMath then
    match tt.Math with
    | none => none
    | some m =>
      if m.Type_ = "" then
        (getMathTransformType tt).map fun t => { tt with Math := some { m with Type_ := t } }
      else some tt
  else some tt

/-- Source: the third `if` of `setTransformTypeRequiredFields` (lines 371-373). The condition
`tt.Type == String && tt.String.Type == ""` dereferences `tt.String` once the first conjunct
holds. -/
def setStringSubType (tt : Transform) : Option Transform :=
  if tt.Type_ = TransformTypeString then
    match tt.String_ with
    | none => none
    | some s =>
      if s.Type_ = "" then
        (getStringTransformType tt).map fun t => { tt with String_ := some { s with Type_ := t } }
      else some tt
  else some tt

/-- Source: `setTransformTypeRequiredFields`. The result is the returned transform; `none` is the
nil-pointer panic. -/
def setTransformTypeRequiredFields (tt : Transform) : Option Transform :=
  (setMathSubType (inferTransformType tt)).bind setStringSubType

/-- Source: the loop `for _, transform := range ... { t = append(t, setTransformTypeRequiredFields(transform)) }`
shared by `setMissingPatchFields` and `setMissingEnvironmentPatchFields`. -/
def setTransforms (transforms : List Transform) : Option (List Transform) :=
  transforms.foldlM (fun t transform =>
    (setTransformTypeRequiredFields transform).map fun r => t ++ [r]) []

/-- Source: `setMissingPatchFields`. -/
def setMissingPatchFields (patch : LegacyPatch) : Option LegacyPatch :=
  let patch1 := if patch.Type_ = "" then { patch with Type_ := PatchTypeFromCompositeFieldPath } else patch
  if patch1.Transforms.length = 0 then some patch1
  else (setTransforms patch1.Transforms).map fun t => { patch1 with Transforms := t }

/-- Source: `setMissingEnvironmentPatchFields`. -/
def setMissingEnvironmentPatchFields (patch : LegacyEnvironmentPatch) : Option LegacyEnvironmentPatch :=
  let patch1 := if patch.Type_ = "" then { patch with Type_ := PatchTypeFromCompositeFieldPath } else patch
  if patch1.Transforms.length = 0 then some patch1
  else (setTransforms patch1.Transforms).map fun t => { patch1 with Transforms := t }

/-- Source: the loop over patches shared by `setMissingPatchSetFields` and
`setMissingResourceFields`. -/
def setPatches (patches : List LegacyPatch) : Option (List LegacyPatch) :=
  patches.foldlM (fun p patch => (setMissingPatchFields patch).map fun r => p ++ [r]) []

/-- Source: `setMissingPatchSetFields`. -/
def setMissingPatchSetFields (patchSet : LegacyPatchSet) : Option LegacyPatchSet :=
  (setPatches patchSet.Patches).map fun p => { patchSet with Patches := p }

/-- Source: `setMissingConnectionDetailFields`. The fresh detail `nsk` starts with a nil `Type`, so
the inference always runs. -/
def setMissingConnectionDetailFields (sk : ConnectionDetail) : ConnectionDetail :=
  let nsk : ConnectionDetail :=
    { Name := sk.Name, Type_ := none, Value := sk.Value,
      FromConnectionSecretKey := sk.FromConnectionSecretKey, FromFieldPath := sk.FromFieldPath }
  let nsk1 :=
    if nsk.Type_ = none then
      if sk.Value ≠ none then { nsk with Type_ := some ConnectionDetailTypeFromValue }
      else if sk.FromFieldPath ≠ none then { nsk with Type_ := some ConnectionDetailTypeFromFieldPath }
      else if sk.FromConnectionSecretKey ≠ none then
        { nsk with Type_ := some ConnectionDetailTypeFromConnectionSecretKey }
      else nsk
    else nsk
  if nsk1.Name = none then
    if nsk1.Type_ = some ConnectionDetailTypeFromConnectionSecretKey then
      { nsk1 with Name := sk.FromConnectionSecretKey }
    else nsk1
  else nsk1

/-- Source: `fmt.Sprintf("resource-%d", idx)` for a non-negative index. -/
def sprintfResource (idx : Nat) : String :=
  "resource-" ++ toString idx

/-- Source: `strings.ToLower`, on ASCII text: every upper-case ASCII letter is replaced by its
lower-case letter and every other character is kept. The converter applies it to the output of
`sprintfResource` only. -/
def ToLower (s : String) : String :=
  String.mk (s.data.map Char.toLower)

/-- Source: `setMissingResourceFields`. -/
def setMissingResourceFields (idx : Nat) (rs : LegacyComposedTemplate) : Option LegacyComposedTemplate :=
  let rs1 :=
    if rs.Name = none ∨ rs.Name = some "" then { rs with Name := some (ToLower (sprintfResource idx)) }
    else rs
  let cd := rs1.ConnectionDetails.foldl (fun cd detail => cd ++ [setMissingConnectionDetailFields detail]) []
  let rs2 := { rs1 with ConnectionDetails := cd }
  (setPatches rs2.Patches).map fun patches => { rs2 with Patches := patches }

/-! ## Migration of the patch policies of the sections -/

/-- Source: `MigratePatchPolicyInResources`. -/
def MigratePatchPolicyInResources (resources : List LegacyComposedTemplate) : List ComposedTemplate :=
  resources.foldl (fun composedTemplates resource =>
    composedTemplates ++
      [{ ComposedTemplate := { resource with Patches := [] },
         Patches := migratePatches resource.Patches }]) []

/-- Source: `MigratePatchPolicyInPatchSets`. -/
def MigratePatchPolicyInPatchSets (patchset : List LegacyPatchSet) : List PatchSet :=
  patchset.foldl (fun newPatchSets patchSet =>
    newPatchSets ++ [{ Name := patchSet.Name, Patches := migratePatches patchSet.Patches }]) []

/-- Source: `MigratePatchPolicyInEnvironment`. -/
def MigratePatchPolicyInEnvironment (ec : Option EnvironmentConfiguration) : Option Environment :=
  match ec with
  | none => none
  | some ec =>
    if ec.Patches.length = 0 then none
    else some { Patches := migrateEnvPatches ec.Patches }

/-! ## Compositions and the conversion -/

/-- Modelled from the spec: the type `metav1.Time`, declared outside the converter; an instant counted
from the zero instant of `time.Time`, so that `IsZero` is the comparison with zero. -/
structure Time where
  ticks : Nat
  deriving DecidableEq, Repr

/-- Modelled from the spec: the method `IsZero` of `metav1.Time`, declared outside the converter. -/
def Time.IsZero (t : Time) : Bool :=
  t.ticks == 0

/-- Modelled from the spec: the type `metav1.TypeMeta`, declared outside the converter. -/
structure TypeMeta where
  Kind : String
  APIVersion : String
  deriving DecidableEq, Repr

/-- Modelled from the spec: the type `metav1.ObjectMeta`, declared outside the converter; the fields
other than the creation timestamp are only copied by the converter. -/
structure ObjectMeta where
  Name : String
  Labels : List (String × String)
  Annotations : List (String × String)
  CreationTimestamp : Time
  deriving DecidableEq, Repr

/-- Modelled from the spec: the type `v1.TypeReference`, declared outside the converter. -/
structure TypeReference where
  APIVersion : String
  Kind : String
  deriving DecidableEq, Repr

/-- Modelled from the spec: the type `v1.StoreConfigReference`, declared outside the converter. -/
structure StoreConfigReference where
  Name : String
  deriving DecidableEq, Repr

/-- Modelled from the spec: the type `v1.FunctionReference`, declared outside the converter. -/
structure FunctionReference where
  Name : String
  deriving DecidableEq, Repr

/-- Source: the map `inputType` built by `processFunctionInput`, with its five keys. -/
structure FunctionInput where
  apiVersion : String
  kind : String
  environment : Option Environment
  patchSets : List PatchSet
  resources : List ComposedTemplate
  deriving DecidableEq, Repr

/-- Modelled from the spec: the type `runtime.RawExtension`, declared outside the converter; `Raw` is
the serialized form, `Object` the unstructured document, here the function input. -/
structure RawExtension where
  Raw : String
  Object : Option FunctionInput
  deriving DecidableEq, Repr

/-- Modelled from the spec: the type `v1.PipelineStep`, declared outside the converter. -/
structure PipelineStep where
  Step : String
  FunctionRef : FunctionReference
  Input : Option RawExtension
  deriving DecidableEq, Repr

/-- Modelled from the spec: the type `v1.CompositionSpec`, declared outside the converter. -/
structure CompositionSpec where
  CompositeTypeRef : TypeReference
  PatchSets : List LegacyPatchSet
  Environment : Option EnvironmentConfiguration
  Resources : List LegacyComposedTemplate
  Mode : Option CompositionMode
  Pipeline : List PipelineStep
  WriteConnectionSecretsToNamespace : Option String
  PublishConnectionDetailsWithStoreConfigRef : Option StoreConfigReference
  deriving DecidableEq, Repr

/-- Modelled from the spec: the type `v1.Composition`, declared outside the converter. -/
structure Composition where
  TypeMeta : TypeMeta
  ObjectMeta : ObjectMeta
  Spec : CompositionSpec
  deriving DecidableEq, Repr

/-- Modelled from the spec: the type `Input` of the converter package, declared outside the
converter. -/
structure Input where
  Environment : Option EnvironmentConfiguration
  PatchSets : List LegacyPatchSet
  Resources : List LegacyComposedTemplate
  deriving DecidableEq, Repr

/-- Source: the constant `defaultFunctionRefName`. -/
def defaultFunctionRefName : String := "function-patch-and-transform"

/-- Source: the constant `errNilComposition`. -/
def errNilComposition : String := "provided Composition is empty"

/-- Source: the loop over the environment patches of `processFunctionInput` (lines 124-127). -/
def setEnvPatches (patches : List LegacyEnvironmentPatch) : Option (List LegacyEnvironmentPatch) :=
  patches.foldlM (fun processedEnvPatches envPatch =>
    (setMissingEnvironmentPatchFields envPatch).map fun r => processedEnvPatches ++ [r]) []

/-- Source: the loop over the patch sets of `processFunctionInput` (lines 134-137). -/
def setPatchSets (patchSets : List LegacyPatchSet) : Option (List LegacyPatchSet) :=
  patchSets.foldlM (fun processedPatchSet patchSet =>
    (setMissingPatchSetFields patchSet).map fun r => processedPatchSet ++ [r]) []

/-- Source: the loop over the resources of `processFunctionInput` (lines 141-144), which passes the
position `idx` of each template. -/
def setResources (resources : List LegacyComposedTemplate) : Option (List LegacyComposedTemplate) :=
  resources.enum.foldlM (fun processedResources ir =>
    (setMissingResourceFields ir.1 ir.2).map fun r => processedResources ++ [r]) []

/-- Source: the environment part of `processFunctionInput` (lines 122-131): the processed
environment, nil unless the input carries environment patches. -/
def processEnvironment (env : Option EnvironmentConfiguration) :
    Option (Option EnvironmentConfiguration) :=
  match env with
  | none => some none
  | some e =>
    if e.Patches.length > 0 then
      (setEnvPatches e.Patches).map fun processedEnvPatches =>
        some { DefaultData := [], EnvironmentConfigs := [], Patches := processedEnvPatches, Policy := none }
    else some none

/-- Source: `processFunctionInput`. The result is the returned raw extension; `none` is the
nil-pointer panic of a transform. -/
def processFunctionInput (input : Input) : Option RawExtension :=
  (processEnvironment input.Environment).bind fun processedEnvironment =>
  (setPatchSets input.PatchSets).bind fun processedPatchSet =>
  (setResources input.Resources).map fun processedResources =>
    { Raw := "",
      Object := some
        { apiVersion := "pt.fn.crossplane.io/v1beta1",
          kind := "Resources",
          environment := MigratePatchPolicyInEnvironment processedEnvironment,
          patchSets := MigratePatchPolicyInPatchSets processedPatchSet,
          resources := MigratePatchPolicyInResources processedResources } }

/-! ### Writes through shared pointers

`setTransformTypeRequiredFields` receives its transform by value, but `Math` and `String` are
pointers: the assignments `tt.Math.Type = ...` and `tt.String.Type = ...` write to the sub-objects
of the caller's transform, which the slices of the input composition still hold. The functions below
give the state of the caller's data after a call that returned. -/

/-- Source: `setTransformTypeRequiredFields`, lines 368 and 372: the caller's transform after the
call. Its own `Type` is untouched (the struct was copied), its `Math` and `String` sub-objects are
the ones the returned transform points to. -/
def Transform.afterCall (tt : Transform) : Option Transform :=
  (setTransformTypeRequiredFields tt).map fun r => { tt with Math := r.Math, String_ := r.String_ }

/-- Source: `setMissingPatchFields`: the caller's patch after the call; the only writes that reach
it are those of `setTransformTypeRequiredFields`. -/
def LegacyPatch.afterCall (patch : LegacyPatch) : Option LegacyPatch :=
  (mapOpt Transform.afterCall patch.Transforms).map fun t => { patch with Transforms := t }

/-- Source: `setMissingEnvironmentPatchFields`: the caller's environment patch after the call. -/
def LegacyEnvironmentPatch.afterCall (patch : LegacyEnvironmentPatch) : Option LegacyEnvironmentPatch :=
  (mapOpt Transform.afterCall patch.Transforms).map fun t => { patch with Transforms := t }

/-- Source: `setMissingPatchSetFields`: the caller's patch set after the call. -/
def LegacyPatchSet.afterCall (patchSet : LegacyPatchSet) : Option LegacyPatchSet :=
  (mapOpt LegacyPatch.afterCall patchSet.Patches).map fun p => { patchSet with Patches := p }

/-- Source: `setMissingResourceFields`: the caller's template after the call; the name and the
connection details are written on the copy only. -/
def LegacyComposedTemplate.afterCall (rs : LegacyComposedTemplate) : Option LegacyComposedTemplate :=
  (mapOpt LegacyPatch.afterCall rs.Patches).map fun p => { rs with Patches := p }

/-- Source: `processFunctionInput` as called by `convertPnTToPipeline`: the spec of the caller's
composition after the call. The environment patches, patch sets and resources of `input` are the
slices of the composition itself (lines 85, 91 and 94). -/
def CompositionSpec.afterCall (spec : CompositionSpec) : Option CompositionSpec :=
  (match spec.Environment with
   | none => some none
   | some e =>
     (mapOpt LegacyEnvironmentPatch.afterCall e.Patches).map fun ps => some { e with Patches := ps }).bind
  fun env =>
  (mapOpt LegacyPatchSet.afterCall spec.PatchSets).bind fun patchSets =>
  (mapOpt LegacyComposedTemplate.afterCall spec.Resources).map fun resources =>
    { spec with Environment := env, PatchSets := patchSets, Resources := resources }

/-- The outcome of a call of `convertPnTToPipeline` that returned: the state of the composition the
argument points to after the call, the returned composition and the returned error. -/
structure Returned where
  input : Option Composition
  value : Option Composition
  err : Option String
  deriving DecidableEq, Repr

/-- Source: the input migrated by `convertPnTToPipeline` (lines 70-95). -/
def legacyInput (c : Composition) : Input :=
  { Environment :=
      match c.Spec.Environment with
      | none => none
      | some e =>
        if e.Patches.length > 0 then
          some { DefaultData := [], EnvironmentConfigs := [], Patches := e.Patches, Policy := none }
        else none
    PatchSets := if c.Spec.PatchSets.length > 0 then c.Spec.PatchSets else []
    Resources := if c.Spec.Resources.length > 0 then c.Spec.Resources else [] }

/-- Source: `convertPnTToPipeline`. `now` is the value of `time.Now()`; `none` is the nil-pointer
panic of a transform. -/
def convertPnTToPipeline (c : Option Composition) (functionRefName : String) (now : Time) :
    Option Returned :=
  match c with
  | none => some { input := none, value := none, err := some errNilComposition }
  | some c =>
    if c.Spec.Mode = some CompositionModePipeline then
      some { input := some c, value := some c, err := none }
    else
      let c1 : Composition :=
        if c.ObjectMeta.CreationTimestamp.IsZero then
          { c with ObjectMeta := { c.ObjectMeta with CreationTimestamp := now } }
        else c
      let env : Option EnvironmentConfiguration :=
        match c1.Spec.Environment with
        | none => none
        | some e =>
          some { DefaultData := e.DefaultData, EnvironmentConfigs := e.EnvironmentConfigs,
                 Patches := [], Policy := e.Policy }
      let fr : FunctionReference :=
        if functionRefName ≠ "" then { Name := functionRefName } else { Name := defaultFunctionRefName }
      (processFunctionInput (legacyInput c1)).bind fun raw =>
      (c1.Spec.afterCall).map fun spec1 =>
        { input := some { c1 with Spec := spec1 },
          value := some
            { TypeMeta := c1.TypeMeta,
              ObjectMeta := c1.ObjectMeta,
              Spec :=
                { CompositeTypeRef := c1.Spec.CompositeTypeRef,
                  WriteConnectionSecretsToNamespace := c1.Spec.WriteConnectionSecretsToNamespace,
                  PublishConnectionDetailsWithStoreConfigRef :=
                    c1.Spec.PublishConnectionDetailsWithStoreConfigRef,
                  Environment := env,
                  PatchSets := [],
                  Resources := [],
                  Mode := some CompositionModePipeline,
                  Pipeline :=
                    [{ Step := "patch-and-transform", FunctionRef := fr, Input := some raw }] } },
          err := none }

/-! ## Predicates and projections used to state the properties -/

/-- A transform whose explicit `Type` is Math carries a `Math` sub-object and whose explicit `Type`
is String carries a `String` sub-object: the two conditions under which lines 367 and 371 of
`setTransformTypeRequiredFields` dereference a non-nil pointer. -/
def Transform.safe (tt : Transform) : Bool :=
  (tt.Type_ != TransformTypeMath || tt.Math.isSome) &&
    (tt.Type_ != TransformTypeString || tt.String_.isSome)

/-- Every transform of every patch of the list is `Transform.safe`. -/
def safePatches (patches : List LegacyPatch) : Bool :=
  patches.all fun p => p.Transforms.all Transform.safe

/-- Every transform of every environment patch of the list is `Transform.safe`. -/
def safeEnvPatches (patches : List LegacyEnvironmentPatch) : Bool :=
  patches.all fun p => p.Transforms.all Transform.safe

/-- Every transform reachable from the function input is `Transform.safe`. -/
def Input.safe (input : Input) : Bool :=
  (match input.Environment with
    | none => true
    | some e => safeEnvPatches e.Patches) &&
  (input.PatchSets.all fun s => safePatches s.Patches) &&
  (input.Resources.all fun r => safePatches r.Patches)

/-- Every transform reachable from the composition is `Transform.safe`. -/
def Composition.safe (c : Composition) : Bool :=
  (match c.Spec.Environment with
    | none => true
    | some e => safeEnvPatches e.Patches) &&
  (c.Spec.PatchSets.all fun s => safePatches s.Patches) &&
  (c.Spec.Resources.all fun r => safePatches r.Patches)

/-- The math sub-object with its `Type` blanked. -/
def MathTransform.eraseType (m : MathTransform) : MathTransform :=
  { m with Type_ := "" }

/-- The string sub-object with its `Type` blanked. -/
def StringTransform.eraseType (s : StringTransform) : StringTransform :=
  { s with Type_ := "" }

/-- The transform with the `Type` of its `Math` and `String` sub-objects blanked. -/
def Transform.eraseSubTypes (tt : Transform) : Transform :=
  { tt with
    Math := tt.Math.map MathTransform.eraseType
    String_ := tt.String_.map StringTransform.eraseType }

/-- The patch with the sub-types of its transforms blanked. -/
def LegacyPatch.eraseSubTypes (p : LegacyPatch) : LegacyPatch :=
  { p with Transforms := p.Transforms.map Transform.eraseSubTypes }

/-- The environment patch with the sub-types of its transforms blanked. -/
def LegacyEnvironmentPatch.eraseSubTypes (p : LegacyEnvironmentPatch) : LegacyEnvironmentPatch :=
  { p with Transforms := p.Transforms.map Transform.eraseSubTypes }

/-- The composition with the sub-types of all its transforms blanked: what is left is every field
of the composition but the `Type` discriminants inside `Math` and `String` sub-objects. -/
def Composition.eraseSubTypes (c : Composition) : Composition :=
  { c with
    Spec :=
      { c.Spec with
        Environment := c.Spec.Environment.map fun e =>
          { e with Patches := e.Patches.map LegacyEnvironmentPatch.eraseSubTypes }
        PatchSets := c.Spec.PatchSets.map fun s =>
          { s with Patches := s.Patches.map LegacyPatch.eraseSubTypes }
        Resources := c.Spec.Resources.map fun r =>
          { r with Patches := r.Patches.map LegacyPatch.eraseSubTypes } } }

/-- The composition with a zero creation timestamp replaced by `now` (lines 55-57). -/
def Composition.stamped (c : Composition) (now : Time) : Composition :=
  if c.ObjectMeta.CreationTimestamp.IsZero then
    { c with ObjectMeta := { c.ObjectMeta with CreationTimestamp := now } }
  else c

/-! ## Concrete compositions -/

/-- A legacy patch with a merge policy (`AppendSlice` true, `KeepMapValues` false) and one transform
whose types are all left to inference. -/
def examplePatch : LegacyPatch :=
  { Type_ := ""
    FromFieldPath := some "spec.size"
    Combine := none
    ToFieldPath := some "spec.forProvider.size"
    PatchSetName := none
    Transforms :=
      [{ Type_ := ""
         Math := some { Type_ := "", Multiply := some 2, ClampMin := none, ClampMax := none }
         Map := none
         Match := none
         String_ := none
         Convert := none }]
    Policy := some
      { FromFieldPath := none
        MergeOptions := some { KeepMapValues := some false, AppendSlice := some true } } }

/-- A legacy composition with a zero creation timestamp, a named template and an anonymous template
that carries `examplePatch`. -/
def exampleComposition : Composition :=
  { TypeMeta := { Kind := "Composition", APIVersion := "apiextensions.crossplane.io/v1" }
    ObjectMeta := { Name := "example", Labels := [], Annotations := [], CreationTimestamp := { ticks := 0 } }
    Spec :=
      { CompositeTypeRef := { APIVersion := "example.org/v1", Kind := "XExample" }
        PatchSets := []
        Environment := none
        Resources :=
          [{ Name := some "bucket", Base := "bucket-base", Patches := [], ConnectionDetails := [],
             ReadinessChecks := [] },
           { Name := none, Base := "role-base", Patches := [examplePatch], ConnectionDetails := [],
             ReadinessChecks := [] }]
        Mode := none
        Pipeline := []
        WriteConnectionSecretsToNamespace := none
        PublishConnectionDetailsWithStoreConfigRef := none } }

/-- A legacy composition with a zero creation timestamp and nothing to migrate. -/
def exampleBare : Composition :=
  { TypeMeta := { Kind := "Composition", APIVersion := "apiextensions.crossplane.io/v1" }
    ObjectMeta := { Name := "bare", Labels := [], Annotations := [], CreationTimestamp := { ticks := 0 } }
    Spec :=
      { CompositeTypeRef := { APIVersion := "example.org/v1", Kind := "XExample" }
        PatchSets := []
        Environment := none
        Resources := []
        Mode := none
        Pipeline := []
        WriteConnectionSecretsToNamespace := none
        PublishConnectionDetailsWithStoreConfigRef := none } }

/-- A legacy composition whose only transform has the explicit `Type` Math and no `Math`
sub-object. -/
def exampleAbsentMath : Composition :=
  { exampleBare with
    Spec :=
      { exampleBare.Spec with
        Resources :=
          [{ Name := some "bucket", Base := "bucket-base",
             Patches :=
               [{ Type_ := "", FromFieldPath := some "spec.size", Combine := none,
                  ToFieldPath := some "spec.forProvider.size", PatchSetName := none,
                  Transforms :=
                    [{ Type_ := "math", Math := none, Map := none, Match := none, String_ := none,
                       Convert := none }],
                  Policy := none }],
             ConnectionDetails := [], ReadinessChecks := [] }] } }

/-- The function input that the conversion of `exampleComposition` builds. -/
def exampleDocument : FunctionInput :=
  { apiVersion := "pt.fn.crossplane.io/v1beta1"
    kind := "Resources"
    environment := none
    patchSets := []
    resources :=
      [{ ComposedTemplate :=
           { Name := some "bucket", Base := "bucket-base", Patches := [], ConnectionDetails := [],
             ReadinessChecks := [] }
         Patches := [] },
       { ComposedTemplate :=
           { Name := some "resource-1", Base := "role-base", Patches := [], ConnectionDetails := [],
             ReadinessChecks := [] }
         Patches :=
           [{ Patch :=
                { Type_ := "FromCompositeFieldPath"
                  FromFieldPath := some "spec.size"
                  Combine := none
                  ToFieldPath := some "spec.forProvider.size"
                  PatchSetName := none
                  Transforms :=
                    [{ Type_ := "math"
                       Math := some
                         { Type_ := "Multiply", Multiply := some 2, ClampMin := none, ClampMax := none }
                       Map := none
                       Match := none
                       String_ := none
                       Convert := none }]
                  Policy := none }
              Policy := some
                { FromFieldPath := none
                  ToFieldPath := some ToFieldPathPolicy.ForceMergeObjectsAppendArrays } }] }] }

/-- The composition that the conversion of `exampleComposition` returns at time 7 with the function
name `fn`. -/
def exampleConverted (fn : String) : Composition :=
  { TypeMeta := exampleComposition.TypeMeta
    ObjectMeta := { exampleComposition.ObjectMeta with CreationTimestamp := { ticks := 7 } }
    Spec :=
      { CompositeTypeRef := { APIVersion := "example.org/v1", Kind := "XExample" }
        PatchSets := []
        Environment := none
        Resources := []
        Mode := some "Pipeline"
        Pipeline :=
          [{ Step := "patch-and-transform"
             FunctionRef := { Name := fn }
             Input := some { Raw := "", Object := some exampleDocument } }]
        WriteConnectionSecretsToNamespace := none
        PublishConnectionDetailsWithStoreConfigRef := none } }

/-- The state of `exampleComposition` after its conversion at time 7: the timestamp is stamped and
the `Math` sub-object of its transform has received a `Type`. -/
def exampleAfter : Composition :=
  { exampleComposition with
    ObjectMeta := { exampleComposition.ObjectMeta with CreationTimestamp := { ticks := 7 } }
    Spec :=
      { exampleComposition.Spec with
        Resources :=
          [{ Name := some "bucket", Base := "bucket-base", Patches := [], ConnectionDetails := [],
             ReadinessChecks := [] },
           { Name := none, Base := "role-base",
             Patches :=
               [{ examplePatch with
                  Transforms :=
                    [{ Type_ := ""
                       Math := some
                         { Type_ := "Multiply", Multiply := some 2, ClampMin := none, ClampMax := none }
                       Map := none
                       Match := none
                       String_ := none
                       Convert := none }] }],
             ConnectionDetails := [], ReadinessChecks := [] }] } }

/-- The outcome of the conversion of `exampleComposition` at time 7 with the function name left
empty. -/
def exampleReturned : Returned :=
  { input := some exampleAfter
    value := some (exampleConverted "function-patch-and-transform")
    err := none }

/-- A legacy composition with a non-zero creation timestamp whose environment carries default data,
a source, a policy and one patch. -/
def exampleEnvironment : Composition :=
  { exampleBare with
    ObjectMeta := { exampleBare.ObjectMeta with CreationTimestamp := { ticks := 3 } }
    Spec :=
      { exampleBare.Spec with
        Environment := some
          { DefaultData := [("region", "eu")]
            EnvironmentConfigs := ["shared"]
            Patches :=
              [{ Type_ := ""
                 FromFieldPath := some "spec.region"
                 Combine := none
                 ToFieldPath := some "region"
                 Transforms := []
                 Policy := some { FromFieldPath := some "Required", MergeOptions := none } }]
            Policy := some "Optional" } } }

/-- A connection detail with an explicit `Type` and two populated sources. -/
def exampleDetail : ConnectionDetail :=
  { Name := some "password"
    Type_ := some ConnectionDetailTypeFromFieldPath
    FromConnectionSecretKey := none
    FromFieldPath := some "status.password"
    Value := some "literal" }

/-- A connection detail with no source populated and no `Type`. -/
def exampleEmptyDetail : ConnectionDetail :=
  { Name := some "empty", Type_ := none, FromConnectionSecretKey := none, FromFieldPath := none,
    Value := none }

/-- The outcome of the conversion of `exampleEnvironment` at time 7 with the function name "fn". -/
def exampleEnvironmentReturned : Returned :=
  { input := some exampleEnvironment
    value := some
      { TypeMeta := exampleEnvironment.TypeMeta
        ObjectMeta := exampleEnvironment.ObjectMeta
        Spec :=
          { CompositeTypeRef := { APIVersion := "example.org/v1", Kind := "XExample" }
            PatchSets := []
            Environment := some
              { DefaultData := [("region", "eu")], EnvironmentConfigs := ["shared"], Patches := [],
                Policy := some "Optional" }
            Resources := []
            Mode := some "Pipeline"
            Pipeline :=
              [{ Step := "patch-and-transform"
                 FunctionRef := { Name := "fn" }
                 Input := some
                   { Raw := ""
                     Object := some
                       { apiVersion := "pt.fn.crossplane.io/v1beta1"
                         kind := "Resources"
                         environment := some
                           { Patches :=
                               [{ EnvironmentPatch :=
                                    { Type_ := "FromCompositeFieldPath"
                                      FromFieldPath := some "spec.region"
                                      Combine := none
                                      ToFieldPath := some "region"
                                      Transforms := []
                                      Policy := none }
                                  Policy := some
                                    { FromFieldPath := some "Required", ToFieldPath := none } }] }
                         patchSets := []
                         resources := [] } } }]
            WriteConnectionSecretsToNamespace := none
            PublishConnectionDetailsWithStoreConfigRef := none } }
    err := none }

/-! ## The fallback composer

The file `composition_fallback.go` of package `composite` is not among the sources; only its test
is. The definitions of this section follow section 4.2 of the specification. -/

/-- Modelled from the spec: a Go `error` as built by `errors.New` and `errors.Wrap`, declared
outside the sources. -/
inductive Err where
  | new (msg : String)
  | wrap (cause : Err) (msg : String)
  deriving DecidableEq, Repr

/-- Modelled from the spec: the type `CompositionResult`, declared outside the sources: the composed
templates, the connection details and the events of a result, uninterpreted. -/
structure CompositionResult where
  Composed : List String
  ConnectionDetails : List (String × String)
  Events : List String
  deriving DecidableEq, Repr

/-- Modelled from the spec: the zero value `CompositionResult{}`. -/
def CompositionResult.empty : CompositionResult :=
  { Composed := [], ConnectionDetails := [], Events := [] }

/-- Modelled from the spec: the contract `Composer` of section 4.1, absent from the sources: from
the composite resource and the request to a result and an error. -/
abbrev Composer (X Q : Type) := X → Q → CompositionResult × Option Err

/-- Modelled from the spec: the type `TriggerFn` of section 4.2, absent from the sources. -/
abbrev TriggerFn (X Q : Type) := X → Q → Bool × Option Err

/-- The two composers a fallback composer wraps. -/
inductive Invoked where
  | preferred
  | fallback
  deriving DecidableEq, Repr

/-- The outcome of `Compose` on a fallback composer: the composers that were invoked, in order, the
returned result and the returned error. -/
structure ComposeOutcome where
  invoked : List Invoked
  res : CompositionResult
  err : Option Err
  deriving DecidableEq, Repr

/-- Modelled from the spec: the type `FallBackComposer` built by `NewFallBackComposer`, absent from
the sources: a preferred composer, a fallback composer and a trigger. -/
structure FallBackComposer (X Q : Type) where
  preferred : Composer X Q
  fallback : Composer X Q
  fn : TriggerFn X Q

/-- Modelled from the spec: the constructor `NewFallBackComposer`, absent from the sources. -/
def NewFallBackComposer {X Q : Type} (preferred fallback : Composer X Q) (fn : TriggerFn X Q) :
    FallBackComposer X Q :=
  { preferred := preferred, fallback := fallback, fn := fn }

/-- Modelled from the spec: the method `Compose` of the fallback composer (section 4.2), absent from
the sources. The trigger is evaluated first; its error is wrapped with the message `errTriggerFn`
and returned with the empty result; otherwise the fallback composer runs when the trigger is true
and the preferred composer when it is false, and its result and error are returned verbatim. The
text of `errTriggerFn` is a constant of the absent file and is taken as an argument. -/
def FallBackComposer.Compose {X Q : Type} (c : FallBackComposer X Q) (errTriggerFn : String)
    (xr : X) (req : Q) : ComposeOutcome :=
  match c.fn xr req with
  | (_, some err) =>
    { invoked := [], res := CompositionResult.empty, err := some (Err.wrap err errTriggerFn) }
  | (true, none) =>
    { invoked := [Invoked.fallback], res := (c.fallback xr req).1, err := (c.fallback xr req).2 }
  | (false, none) =>
    { invoked := [Invoked.preferred], res := (c.preferred xr req).1, err := (c.preferred xr req).2 }

/-- A transform with no `Type`, whose `Math` sub-object has no `Type` and both `ClampMin` and
`Multiply` set. -/
def exampleClamp : Transform :=
  { Type_ := ""
    Math := some { Type_ := "", Multiply := some 2, ClampMin := some 1, ClampMax := none }
    Map := none
    Match := none
    String_ := none
    Convert := none }

/-- The transform returned for `exampleClamp`. -/
def exampleClampReturned : Transform :=
  { Type_ := "math"
    Math := some { Type_ := "ClampMin", Multiply := some 2, ClampMin := some 1, ClampMax := none }
    Map := none
    Match := none
    String_ := none
    Convert := none }

/-- A connection detail with no `Type` and no `Name`, sourced from a connection secret key. -/
def exampleSecretKeyDetail : ConnectionDetail :=
  { Name := none, Type_ := none, FromConnectionSecretKey := some "password", FromFieldPath := none,
    Value := none }

/-- A result with one connection detail. -/
def exampleResult : CompositionResult :=
  { Composed := [], ConnectionDetails := [("a", "b")], Events := [] }

/-! ## The legacy-shape trigger predicate

The function `FallBackForAnonymousTemplates` belongs to the same absent file; only its test is
among the sources. The definitions of this section follow section 4.3 of the specification. -/

/-- Modelled from the spec: the type `corev1.ObjectReference` of a composed-resource reference,
declared outside the sources. -/
structure ObjectReference where
  Name : String
  Namespace : String
  deriving DecidableEq, Repr

/-- Modelled from the spec: the composite resource as the predicate sees it, declared outside the
sources: the references to its composed resources, in order. -/
structure Composite where
  ResourceRefs : List ObjectReference
  deriving DecidableEq, Repr

/-- Modelled from the spec: the type `v1.CompositionRevision` as the predicate sees it, declared
outside the sources: its resource templates. -/
structure CompositionRevision where
  Resources : List LegacyComposedTemplate
  deriving DecidableEq, Repr

/-- Modelled from the spec: the type `CompositionRequest`, declared outside the sources. -/
structure CompositionRequest where
  Revision : CompositionRevision
  deriving DecidableEq, Repr

/-- Modelled from the spec: a composed resource as fetched from the store, declared outside the
sources: its annotations. -/
structure ComposedObject where
  Annotations : List (String × String)
  deriving DecidableEq, Repr

/-- Modelled from the spec: the outcome of `Get` on the declarative-state store (section 6), which
surfaces a distinguishable not-found error: the object, a not-found error, or any other error. -/
inductive GetResult where
  | found (obj : ComposedObject)
  | notFound
  | failed (err : Err)
  deriving DecidableEq, Repr

/-- Modelled from the spec: the key of the annotation that records which named template produced a
composed resource, a constant declared outside the sources. -/
def AnnotationKeyCompositionResourceName : String := "crossplane.io/composition-resource-name"

/-- Modelled from the spec: a fetched object is missing the annotation that records the template
that produced it (section 4.3, rule 2). -/
def ComposedObject.lacksResourceName (obj : ComposedObject) : Bool :=
  (obj.Annotations.lookup AnnotationKeyCompositionResourceName).isNone

/-- The outcome of the trigger predicate: the references it fetched, in order, the fallback decision
and the error. -/
structure TriggerOutcome where
  fetched : List ObjectReference
  fallback : Bool
  err : Option Err
  deriving DecidableEq, Repr

/-- Modelled from the spec: rule 2 of section 4.3 of the absent `FallBackForAnonymousTemplates`: the
references are fetched in order; a not-found error is ignored, any other error ends the decision
with false and the error wrapped with the message `errGetComposed`, and a found object that lacks
the annotation ends it with true. Rule 3: when the references are exhausted the decision is
false. `fetched` accumulates the references fetched so far. -/
def checkReferences (get : ObjectReference → GetResult) (errGetComposed : String) :
    List ObjectReference → List ObjectReference → TriggerOutcome
  | [], fetched => { fetched := fetched, fallback := false, err := none }
  | ref :: rest, fetched =>
    match get ref with
    | GetResult.notFound => checkReferences get errGetComposed rest (fetched ++ [ref])
    | GetResult.failed e =>
      { fetched := fetched ++ [ref], fallback := false, err := some (Err.wrap e errGetComposed) }
    | GetResult.found obj =>
      if obj.lacksResourceName then
        { fetched := fetched ++ [ref], fallback := true, err := none }
      else checkReferences get errGetComposed rest (fetched ++ [ref])

/-- Modelled from the spec: a template whose name is unset or empty (section 4.3, rule 1). -/
def isAnonymous (t : LegacyComposedTemplate) : Bool :=
  decide (t.Name = none ∨ t.Name = some "")

/-- Modelled from the spec: the function `FallBackForAnonymousTemplates` (section 4.3), absent from
the sources. Rule 1: an anonymous template in the revision gives (true, nil) at once; otherwise the
references of the composite resource are checked by `checkReferences`. The store is the function
`get`; the text of `errGetComposed` is a constant of the absent file and is taken as an argument. -/
def FallBackForAnonymousTemplates (get : ObjectReference → GetResult) (errGetComposed : String)
    (xr : Composite) (req : CompositionRequest) : TriggerOutcome :=
  if req.Revision.Resources.any isAnonymous then
    { fetched := [], fallback := true, err := none }
  else checkReferences get errGetComposed xr.ResourceRefs []

/-! ## The validation mode

The method `GetValidationMode` of `v1.Composition` is not among the sources; only its test is. The
definitions of this section follow section 4.5 of the specification. -/

abbrev CompositionValidationMode := String

/-- Modelled from the spec: the constant `CompositionValidationModeAnnotation`, declared outside the
sources: the fixed annotation key. -/
def CompositionValidationModeAnnotation : String := "crossplane.io/composition-validation-mode"

/-- Modelled from the spec: the constant `CompositionValidationModeStrict`, declared outside the
sources. -/
def CompositionValidationModeStrict : CompositionValidationMode := "strict"

/-- Modelled from the spec: the constant `CompositionValidationModeLoose`, declared outside the
sources: the default mode. -/
def CompositionValidationModeLoose : CompositionValidationMode := "loose"

/-- The outcome of `GetValidationMode`: the returned mode (the empty string when there is none) and
the returned error. -/
structure ValidationModeOutcome where
  mode : CompositionValidationMode
  err : Option Err
  deriving DecidableEq, Repr

/-- Modelled from the spec: the method `GetValidationMode` (section 4.5), absent from the sources.
No annotation gives Loose; a recognized value gives that value; any other value gives an error
whose message names it. The format `errFmtInvalidCompositionValidationMode` is a constant of the
absent file: the texts `before` and `after` stand for what it prints around the value. -/
def GetValidationMode (before after : String) (c : Composition) : ValidationModeOutcome :=
  match c.ObjectMeta.Annotations.lookup CompositionValidationModeAnnotation with
  | none => { mode := CompositionValidationModeLoose, err := none }
  | some mode =>
    if mode = CompositionValidationModeStrict ∨ mode = CompositionValidationModeLoose then
      { mode := mode, err := none }
    else { mode := "", err := some (Err.new (before ++ mode ++ after)) }

/-- The composition `exampleBare` with the given annotations. -/
def exampleAnnotated (annotations : List (String × String)) : Composition :=
  { exampleBare with ObjectMeta := { exampleBare.ObjectMeta with Annotations := annotations } }

/-- A store in which no object is found. -/
def exampleNotFoundStore : ObjectReference → GetResult :=
  fun _ => GetResult.notFound

/-- A template with the given name and nothing else. -/
def exampleNamed (name : Option String) : LegacyComposedTemplate :=
  { Name := name, Base := "", Patches := [], ConnectionDetails := [], ReadinessChecks := [] }

/-- The number read from a list of decimal digit characters, continuing from `start`. -/
def digitsValue (cs : List Char) (start : Nat) : Nat :=
  cs.foldl (fun acc c => 10 * acc + (c.toNat - 48)) start

/-- A function input with two anonymous templates, one with a nil name and one with an empty
name. -/
def exampleTwoAnonymous : Input :=
  { Environment := none
    PatchSets := []
    Resources := [exampleNamed none, exampleNamed (some "")] }

/-- The raw extension that `processFunctionInput` returns for `exampleTwoAnonymous`. -/
def exampleTwoAnonymousRaw : RawExtension :=
  { Raw := ""
    Object := some
      { apiVersion := "pt.fn.crossplane.io/v1beta1"
        kind := "Resources"
        environment := none
        patchSets := []
        resources :=
          [{ ComposedTemplate := exampleNamed (some "resource-0"), Patches := [] },
           { ComposedTemplate := exampleNamed (some "resource-1"), Patches := [] }] } }

/-! ## Loops as maps -/

theorem foldl_append_eq_map {α β : Type} (f : α → β) (l : List α) (init : List β) :
    l.foldl (fun acc x => acc ++ [f x]) init = init ++ l.map f := by
  induction l generalizing init with
  | nil => simp
  | cons a l ih => simp [ih]

theorem migratePatches_eq_map (patches : List LegacyPatch) :
    migratePatches patches = patches.map migratePatch := by
  simp [migratePatches, foldl_append_eq_map]

theorem migrateEnvPatches_eq_map (envPatches : List LegacyEnvironmentPatch) :
    migrateEnvPatches envPatches = envPatches.map migrateEnvPatch := by
  simp [migrateEnvPatches, foldl_append_eq_map]

/-! ## Merge policy migration -/

/-- C1: `migrateMergeOptions` implements the merge-options truth table, a nil flag and a false flag
being treated alike; an absent merge-options object gives a nil policy, which differs from the
policy of a present object whose flags are both nil or false. -/
theorem migrateMergeOptions_truth_table (mo : MergeOptions) :
    (((mo.AppendSlice = none ∨ mo.AppendSlice = some false) ∧
        (mo.KeepMapValues = none ∨ mo.KeepMapValues = some false)) →
      migrateMergeOptions (some mo) = some ToFieldPathPolicy.ForceMergeObjects) ∧
    ((mo.AppendSlice = some true ∧
        (mo.KeepMapValues = none ∨ mo.KeepMapValues = some false)) →
      migrateMergeOptions (some mo) = some ToFieldPathPolicy.ForceMergeObjectsAppendArrays) ∧
    (((mo.AppendSlice = none ∨ mo.AppendSlice = some false) ∧
        mo.KeepMapValues = some true) →
      migrateMergeOptions (some mo) = some ToFieldPathPolicy.MergeObjects) ∧
    ((mo.AppendSlice = some true ∧ mo.KeepMapValues = some true) →
      migrateMergeOptions (some mo) = some ToFieldPathPolicy.MergeObjectsAppendArrays) ∧
    migrateMergeOptions none = none ∧
    (((mo.AppendSlice = none ∨ mo.AppendSlice = some false) ∧
        (mo.KeepMapValues = none ∨ mo.KeepMapValues = some false)) →
      migrateMergeOptions none ≠ migrateMergeOptions (some mo)) := by
  obtain ⟨k, a⟩ := mo
  rcases k with _ | _ | _ <;> rcases a with _ | _ | _ <;>
    simp [migrateMergeOptions, isTrue, isNilOrFalse]

/-- Witness of C1 at the merge options with `AppendSlice` true and `KeepMapValues` nil. -/
theorem migrateMergeOptions_truth_table_witness :
    migrateMergeOptions (some { KeepMapValues := none, AppendSlice := some true }) =
      some ToFieldPathPolicy.ForceMergeObjectsAppendArrays :=
  (migrateMergeOptions_truth_table { KeepMapValues := none, AppendSlice := some true }).2.1
    ⟨rfl, Or.inl rfl⟩

/-- C2: `migratePatchPolicy` returns nil exactly when the legacy policy has neither a
`FromFieldPath` nor `MergeOptions`; otherwise it returns the policy carrying the input's
`FromFieldPath` and the migrated merge options; the empty policy object is never returned. -/
theorem migratePatchPolicy_nil_iff (policy : LegacyPatchPolicy) :
    (migratePatchPolicy policy = none ↔
      (policy.FromFieldPath = none ∧ policy.MergeOptions = none)) ∧
    (¬ (policy.FromFieldPath = none ∧ policy.MergeOptions = none) →
      migratePatchPolicy policy =
        some { FromFieldPath := policy.FromFieldPath,
               ToFieldPath := migrateMergeOptions policy.MergeOptions }) ∧
    migratePatchPolicy policy ≠ some { FromFieldPath := none, ToFieldPath := none } := by
  obtain ⟨ff, mo⟩ := policy
  have hmo : ∀ m : MergeOptions, migrateMergeOptions (some m) ≠ none := by
    intro m
    obtain ⟨k, a⟩ := m
    rcases k with _ | _ | _ <;> rcases a with _ | _ | _ <;>
      simp [migrateMergeOptions, isTrue, isNilOrFalse]
  cases mo with
  | none => cases ff <;> simp [migratePatchPolicy, migrateMergeOptions]
  | some m =>
    have h := hmo m
    cases ff <;> simp [migratePatchPolicy, h]

/-- Witness of C2 at a policy that only carries merge options. -/
theorem migratePatchPolicy_nil_iff_witness :
    migratePatchPolicy
        { FromFieldPath := none,
          MergeOptions := some { KeepMapValues := some false, AppendSlice := some true } } =
      some { FromFieldPath := none,
             ToFieldPath := some ToFieldPathPolicy.ForceMergeObjectsAppendArrays } :=
  (migratePatchPolicy_nil_iff
      { FromFieldPath := none,
        MergeOptions := some { KeepMapValues := some false, AppendSlice := some true } }).2.1
    (by decide)

/-- C3: `migratePatches` and `migrateEnvPatches` keep the length and the order of their input; at
every position the embedded legacy patch is the input patch with its `Policy` cleared, and the new
`Policy` is `migratePatchPolicy` of the input policy when there is one and nil otherwise. A patch
whose policy has `AppendSlice` true and `KeepMapValues` false gets `ForceMergeObjectsAppendArrays`. -/
theorem migratePatches_pointwise (patches : List LegacyPatch)
    (envPatches : List LegacyEnvironmentPatch) :
    (migratePatches patches).length = patches.length ∧
    (∀ (i : Nat) (p : LegacyPatch), patches[i]? = some p →
      ∃ r, (migratePatches patches)[i]? = some r ∧
        r.Patch = { p with Policy := none } ∧
        r.Policy = p.Policy.bind migratePatchPolicy ∧
        (∀ ff : Option FromFieldPathPolicy,
          p.Policy = some (LegacyPatchPolicy.mk ff (some (MergeOptions.mk (some false) (some true)))) →
          r.Policy.bind (fun q => q.ToFieldPath) =
            some ToFieldPathPolicy.ForceMergeObjectsAppendArrays)) ∧
    (migrateEnvPatches envPatches).length = envPatches.length ∧
    (∀ (i : Nat) (p : LegacyEnvironmentPatch), envPatches[i]? = some p →
      ∃ r, (migrateEnvPatches envPatches)[i]? = some r ∧
        r.EnvironmentPatch = { p with Policy := none } ∧
        r.Policy = p.Policy.bind migratePatchPolicy ∧
        (∀ ff : Option FromFieldPathPolicy,
          p.Policy = some (LegacyPatchPolicy.mk ff (some (MergeOptions.mk (some false) (some true)))) →
          r.Policy.bind (fun q => q.ToFieldPath) =
            some ToFieldPathPolicy.ForceMergeObjectsAppendArrays)) := by
  refine ⟨by simp [migratePatches_eq_map], ?_, by simp [migrateEnvPatches_eq_map], ?_⟩
  · intro i p hp
    refine ⟨migratePatch p, by simp [migratePatches_eq_map, hp], ?_, ?_, ?_⟩
    · cases hpol : p.Policy <;> simp [migratePatch, hpol]
      rw [← hpol]
    · cases hpol : p.Policy <;> simp [migratePatch, hpol]
    · intro ff hpol
      cases ff <;> simp [migratePatch, hpol, migratePatchPolicy, migrateMergeOptions, isTrue, isNilOrFalse]
  · intro i p hp
    refine ⟨migrateEnvPatch p, by simp [migrateEnvPatches_eq_map, hp], ?_, ?_, ?_⟩
    · cases hpol : p.Policy <;> simp [migrateEnvPatch, hpol]
      rw [← hpol]
    · cases hpol : p.Policy <;> simp [migrateEnvPatch, hpol]
    · intro ff hpol
      cases ff <;> simp [migrateEnvPatch, hpol, migratePatchPolicy, migrateMergeOptions, isTrue, isNilOrFalse]

/-! ## Loops that may panic -/

theorem foldlM_append_eq_mapOpt {α β : Type} (f : α → Option β) (l : List α) (init : List β) :
    l.foldlM (fun acc x => (f x).map fun r => acc ++ [r]) init =
      (mapOpt f l).map (fun out => init ++ out) := by
  induction l generalizing init with
  | nil => simp [mapOpt]
  | cons a l ih =>
    simp only [List.foldlM_cons, mapOpt]
    cases h : f a with
    | none => simp
    | some b =>
      simp [ih]
      cases mapOpt f l <;> simp

theorem foldlM_nil_eq_mapOpt {α β : Type} (f : α → Option β) (l : List α) :
    l.foldlM (fun acc x => (f x).map fun r => acc ++ [r]) [] = mapOpt f l := by
  rw [foldlM_append_eq_mapOpt]
  cases mapOpt f l <;> simp

theorem mapOpt_eq_some_pointwise {α β : Type} (f : α → Option β) (l : List α) (out : List β)
    (h : mapOpt f l = some out) :
    out.length = l.length ∧
      ∀ (i : Nat) (x : α), l[i]? = some x → ∃ r, out[i]? = some r ∧ f x = some r := by
  induction l generalizing out with
  | nil =>
    simp [mapOpt] at h
    subst h
    simp
  | cons a l ih =>
    simp only [mapOpt] at h
    cases hfa : f a with
    | none => simp [hfa] at h
    | some b =>
      cases hl : mapOpt f l with
      | none => simp [hfa, hl] at h
      | some tl =>
        simp [hfa, hl] at h
        subst h
        obtain ⟨hlen, hpt⟩ := ih tl hl
        refine ⟨by simp [hlen], ?_⟩
        intro i x hx
        cases i with
        | zero =>
          simp at hx
          subst hx
          exact ⟨b, by simp, hfa⟩
        | succ j =>
          simp at hx
          obtain ⟨r, hr, hfr⟩ := hpt j x hx
          exact ⟨r, by simpa using hr, hfr⟩

theorem mapOpt_isSome {α β : Type} (f : α → Option β) (l : List α) :
    (mapOpt f l).isSome = l.all fun x => (f x).isSome := by
  induction l with
  | nil => simp [mapOpt]
  | cons a l ih =>
    simp only [mapOpt, List.all_cons]
    cases hfa : f a with
    | none => simp
    | some b =>
      rw [← ih]
      cases mapOpt f l <;> simp

theorem mapOpt_map_eq {α β : Type} (f : α → Option β) (g : α → β) (l : List α)
    (h : ∀ x ∈ l, f x = some (g x)) : mapOpt f l = some (l.map g) := by
  induction l with
  | nil => simp [mapOpt]
  | cons a l ih =>
    have ha := h a (by simp)
    have hl := ih fun x hx => h x (by simp [hx])
    simp [mapOpt, ha, hl]

/-! ## The transform step -/

theorem getMathTransformType_some (tt : Transform) (m : MathTransform) (h : tt.Math = some m) :
    ∃ t, getMathTransformType tt = some t := by
  unfold getMathTransformType
  rw [h]
  simp only
  split_ifs <;> exact ⟨_, rfl⟩

theorem getStringTransformType_some (tt : Transform) (s : StringTransform)
    (h : tt.String_ = some s) : ∃ t, getStringTransformType tt = some t := by
  unfold getStringTransformType
  rw [h]
  simp only
  split_ifs <;> exact ⟨_, rfl⟩

theorem setMathSubType_eq_none (tt : Transform) :
    setMathSubType tt = none ↔ (tt.Type_ = TransformTypeMath ∧ tt.Math = none) := by
  unfold setMathSubType
  by_cases hty : tt.Type_ = TransformTypeMath
  · cases hm : tt.Math with
    | none => simp [hty]
    | some m =>
      obtain ⟨t, ht⟩ := getMathTransformType_some tt m hm
      by_cases hmt : m.Type_ = "" <;> simp [hty, hmt, ht]
  · simp [hty]

theorem setStringSubType_eq_none (tt : Transform) :
    setStringSubType tt = none ↔ (tt.Type_ = TransformTypeString ∧ tt.String_ = none) := by
  unfold setStringSubType
  by_cases hty : tt.Type_ = TransformTypeString
  · cases hs : tt.String_ with
    | none => simp [hty]
    | some s =>
      obtain ⟨t, ht⟩ := getStringTransformType_some tt s hs
      by_cases hst : s.Type_ = "" <;> simp [hty, hst, ht]
  · simp [hty]

/-- What `setMathSubType` leaves untouched when it returns. -/
theorem setMathSubType_frame (tt r : Transform) (h : setMathSubType tt = some r) :
    r.Type_ = tt.Type_ ∧ r.String_ = tt.String_ ∧ r.Map = tt.Map ∧ r.Match = tt.Match ∧
      r.Convert = tt.Convert ∧
      r.Math.map MathTransform.eraseType = tt.Math.map MathTransform.eraseType := by
  unfold setMathSubType at h
  by_cases hty : tt.Type_ = TransformTypeMath
  · cases hm : tt.Math with
    | none => simp [hty, hm] at h
    | some m =>
      by_cases hmt : m.Type_ = ""
      · obtain ⟨t, ht⟩ := getMathTransformType_some tt m hm
        simp [hty, hm, hmt, ht] at h
        subst h
        simp [MathTransform.eraseType, hty]
      · simp [hty, hm, hmt] at h
        subst h
        simp [hm]
  · simp [hty] at h
    subst h
    simp

/-- What `setStringSubType` leaves untouched when it returns. -/
theorem setStringSubType_frame (tt r : Transform) (h : setStringSubType tt = some r) :
    r.Type_ = tt.Type_ ∧ r.Math = tt.Math ∧ r.Map = tt.Map ∧ r.Match = tt.Match ∧
      r.Convert = tt.Convert ∧
      r.String_.map StringTransform.eraseType = tt.String_.map StringTransform.eraseType := by
  unfold setStringSubType at h
  by_cases hty : tt.Type_ = TransformTypeString
  · cases hs : tt.String_ with
    | none => simp [hty, hs] at h
    | some s =>
      by_cases hst : s.Type_ = ""
      · obtain ⟨t, ht⟩ := getStringTransformType_some tt s hs
        simp [hty, hs, hst, ht] at h
        subst h
        simp [StringTransform.eraseType, hty]
      · simp [hty, hs, hst] at h
        subst h
        simp [hs]
  · simp [hty] at h
    subst h
    simp

/-- What `inferTransformType` leaves untouched. -/
theorem inferTransformType_frame (tt : Transform) :
    (inferTransformType tt).Math = tt.Math ∧ (inferTransformType tt).String_ = tt.String_ ∧
      (inferTransformType tt).Map = tt.Map ∧ (inferTransformType tt).Match = tt.Match ∧
      (inferTransformType tt).Convert = tt.Convert := by
  unfold inferTransformType
  by_cases h0 : tt.Type_ = "" <;> by_cases hm : tt.Math = none <;>
    by_cases hs : tt.String_ = none <;> simp [h0, hm, hs]

/-- The `Type` after `inferTransformType`. -/
theorem inferTransformType_type (tt : Transform) :
    (inferTransformType tt).Type_ =
      if tt.Type_ = "" then
        if tt.String_ ≠ none then TransformTypeString
        else if tt.Math ≠ none then TransformTypeMath else ""
      else tt.Type_ := by
  unfold inferTransformType
  by_cases h0 : tt.Type_ = "" <;> by_cases hm : tt.Math = none <;>
    by_cases hs : tt.String_ = none <;> simp [h0, hm, hs]

theorem setTransformTypeRequiredFields_eq_none (tt : Transform) :
    setTransformTypeRequiredFields tt = none ↔ tt.safe = false := by
  unfold setTransformTypeRequiredFields
  have hf := inferTransformType_frame tt
  have ht := inferTransformType_type tt
  cases h1 : setMathSubType (inferTransformType tt) with
  | none =>
    have h := (setMathSubType_eq_none _).mp h1
    rw [hf.1, ht] at h
    simp only [Option.bind, true_iff]
    obtain ⟨hty, hm⟩ := h
    by_cases h0 : tt.Type_ = ""
    · by_cases hs : tt.String_ = none
      · simp [h0, hs, hm, TransformTypeMath] at hty
      · simp [h0, hs, TransformTypeMath, TransformTypeString] at hty
    · simp [h0] at hty
      simp [Transform.safe, hty, hm]
  | some r =>
    have hr := setMathSubType_frame _ r h1
    simp only [Option.bind]
    rw [setStringSubType_eq_none, hr.1, hr.2.1, hf.2.1, ht]
    have hnot : ¬ ((inferTransformType tt).Type_ = TransformTypeMath ∧
        (inferTransformType tt).Math = none) := by
      intro hc
      have := (setMathSubType_eq_none _).mpr hc
      simp [h1] at this
    rw [hf.1, ht] at hnot
    by_cases h0 : tt.Type_ = ""
    · by_cases hs : tt.String_ = none
      · by_cases hm : tt.Math = none <;>
          simp [h0, hs, hm, Transform.safe, TransformTypeMath, TransformTypeString]
      · cases hs2 : tt.String_ with
        | none => exact absurd hs2 hs
        | some v => simp [h0, Transform.safe, TransformTypeMath, TransformTypeString]
    · simp only [h0, if_false] at hnot ⊢
      by_cases hm : tt.Type_ = TransformTypeMath
      · have hmm : tt.Math ≠ none := fun hc => hnot ⟨hm, hc⟩
        cases hm2 : tt.Math with
        | none => exact absurd hm2 hmm
        | some v => simp [Transform.safe, hm, hm2, TransformTypeMath, TransformTypeString]
      · by_cases hs : tt.Type_ = TransformTypeString
        · cases hs2 : tt.String_ <;>
            simp [Transform.safe, hs, hs2, TransformTypeMath, TransformTypeString]
        · simp [Transform.safe, hs, hm]

theorem setTransformTypeRequiredFields_isSome (tt : Transform) :
    (setTransformTypeRequiredFields tt).isSome = tt.safe := by
  have h := setTransformTypeRequiredFields_eq_none tt
  cases hr : setTransformTypeRequiredFields tt with
  | none => simp [h.mp hr]
  | some r =>
    cases hs : tt.safe with
    | true => simp
    | false => simp [h.mpr hs] at hr

/-- What `setTransformTypeRequiredFields` leaves untouched when it returns. -/
theorem setTransformTypeRequiredFields_frame (tt r : Transform)
    (h : setTransformTypeRequiredFields tt = some r) :
    r.Map = tt.Map ∧ r.Match = tt.Match ∧ r.Convert = tt.Convert ∧
      r.Math.map MathTransform.eraseType = tt.Math.map MathTransform.eraseType ∧
      r.String_.map StringTransform.eraseType = tt.String_.map StringTransform.eraseType := by
  unfold setTransformTypeRequiredFields at h
  cases h1 : setMathSubType (inferTransformType tt) with
  | none => simp [h1] at h
  | some r1 =>
    simp [h1] at h
    have hf := inferTransformType_frame tt
    have hm := setMathSubType_frame _ r1 h1
    have hs := setStringSubType_frame _ r h
    refine ⟨?_, ?_, ?_, ?_, ?_⟩
    · rw [hs.2.2.1, hm.2.2.1, hf.2.2.1]
    · rw [hs.2.2.2.1, hm.2.2.2.1, hf.2.2.2.1]
    · rw [hs.2.2.2.2.1, hm.2.2.2.2.1, hf.2.2.2.2]
    · rw [hs.2.1, hm.2.2.2.2.2, hf.1]
    · rw [hs.2.2.2.2.2, hm.2.1, hf.2.1]

/-! ## Synthetic names -/

theorem digitChar_toLower (k : Nat) (hk : k < 10) :
    (Nat.digitChar k).toLower = Nat.digitChar k := by
  interval_cases k <;> decide

theorem toDigitsCore_toLower (f : Nat) : ∀ (n : Nat) (ds : List Char),
    (∀ c ∈ ds, c.toLower = c) → ∀ c ∈ Nat.toDigitsCore 10 f n ds, c.toLower = c := by
  induction f with
  | zero =>
    intro n ds h c hc
    exact h c (by simpa [Nat.toDigitsCore] using hc)
  | succ f ih =>
    intro n ds h c hc
    have hd : ∀ c ∈ Nat.digitChar (n % 10) :: ds, c.toLower = c := by
      intro c hc
      rcases List.mem_cons.mp hc with rfl | hc
      · exact digitChar_toLower _ (Nat.mod_lt _ (by decide))
      · exact h c hc
    simp only [Nat.toDigitsCore] at hc
    split_ifs at hc
    · exact hd c hc
    · exact ih _ _ hd c hc

theorem map_toLower_toDigits (n : Nat) :
    (Nat.toDigits 10 n).map Char.toLower = Nat.toDigits 10 n := by
  have h := toDigitsCore_toLower (n + 1) n [] (by simp)
  calc (Nat.toDigits 10 n).map Char.toLower = (Nat.toDigits 10 n).map id :=
        List.map_congr_left fun c hc => h c hc
    _ = Nat.toDigits 10 n := List.map_id _

/-- Lower-casing leaves the synthetic name as printed. -/
theorem ToLower_sprintfResource (idx : Nat) :
    ToLower (sprintfResource idx) = "resource-" ++ toString idx := by
  have h : (toString idx : String) = String.mk (Nat.toDigits 10 idx) := rfl
  unfold ToLower sprintfResource
  rw [h]
  apply String.ext
  simp only [String.data_append, List.map_append, map_toLower_toDigits]
  rfl

theorem sprintfResource_ne_empty (idx : Nat) : "resource-" ++ toString idx ≠ "" := by
  intro h
  have h2 := congrArg String.length h
  simp only [String.length_append, String.length_empty, Nat.add_eq_zero] at h2
  exact absurd h2.1 (by decide)

/-! ## Patches and templates -/

theorem setTransforms_eq_mapOpt (transforms : List Transform) :
    setTransforms transforms = mapOpt setTransformTypeRequiredFields transforms := by
  unfold setTransforms
  exact foldlM_nil_eq_mapOpt _ _

theorem setTransforms_isSome (transforms : List Transform) :
    (setTransforms transforms).isSome = transforms.all Transform.safe := by
  rw [setTransforms_eq_mapOpt, mapOpt_isSome]
  congr 1
  funext tt
  exact setTransformTypeRequiredFields_isSome tt

theorem setMissingPatchFields_isSome (patch : LegacyPatch) :
    (setMissingPatchFields patch).isSome = patch.Transforms.all Transform.safe := by
  unfold setMissingPatchFields
  have key : ∀ p1 : LegacyPatch, p1.Transforms = patch.Transforms →
      (if p1.Transforms.length = 0 then some p1
        else (setTransforms p1.Transforms).map fun t => { p1 with Transforms := t }).isSome =
      patch.Transforms.all Transform.safe := by
    intro p1 hp1
    by_cases hlen : p1.Transforms.length = 0
    · have : patch.Transforms = [] := by
        rw [← hp1]
        exact List.length_eq_zero.mp hlen
      simp [hlen, this]
    · simp only [hlen, if_false, Option.isSome_map']
      rw [setTransforms_isSome, hp1]
  by_cases h0 : patch.Type_ = ""
  · rw [if_pos h0]
    exact key { patch with Type_ := PatchTypeFromCompositeFieldPath } rfl
  · rw [if_neg h0]
    exact key patch rfl

theorem setMissingEnvironmentPatchFields_isSome (patch : LegacyEnvironmentPatch) :
    (setMissingEnvironmentPatchFields patch).isSome = patch.Transforms.all Transform.safe := by
  unfold setMissingEnvironmentPatchFields
  have key : ∀ p1 : LegacyEnvironmentPatch, p1.Transforms = patch.Transforms →
      (if p1.Transforms.length = 0 then some p1
        else (setTransforms p1.Transforms).map fun t => { p1 with Transforms := t }).isSome =
      patch.Transforms.all Transform.safe := by
    intro p1 hp1
    by_cases hlen : p1.Transforms.length = 0
    · have : patch.Transforms = [] := by
        rw [← hp1]
        exact List.length_eq_zero.mp hlen
      simp [hlen, this]
    · simp only [hlen, if_false, Option.isSome_map']
      rw [setTransforms_isSome, hp1]
  by_cases h0 : patch.Type_ = ""
  · rw [if_pos h0]
    exact key { patch with Type_ := PatchTypeFromCompositeFieldPath } rfl
  · rw [if_neg h0]
    exact key patch rfl

theorem setPatches_eq_mapOpt (patches : List LegacyPatch) :
    setPatches patches = mapOpt setMissingPatchFields patches := by
  unfold setPatches
  exact foldlM_nil_eq_mapOpt _ _

theorem setPatches_isSome (patches : List LegacyPatch) :
    (setPatches patches).isSome = safePatches patches := by
  rw [setPatches_eq_mapOpt, mapOpt_isSome]
  unfold safePatches
  congr 1
  funext p
  exact setMissingPatchFields_isSome p

theorem setEnvPatches_isSome (patches : List LegacyEnvironmentPatch) :
    (setEnvPatches patches).isSome = safeEnvPatches patches := by
  unfold setEnvPatches
  rw [foldlM_nil_eq_mapOpt, mapOpt_isSome]
  unfold safeEnvPatches
  congr 1
  funext p
  exact setMissingEnvironmentPatchFields_isSome p

theorem setMissingPatchSetFields_isSome (patchSet : LegacyPatchSet) :
    (setMissingPatchSetFields patchSet).isSome = safePatches patchSet.Patches := by
  unfold setMissingPatchSetFields
  rw [Option.isSome_map', setPatches_isSome]

theorem setPatchSets_isSome (patchSets : List LegacyPatchSet) :
    (setPatchSets patchSets).isSome = patchSets.all fun s => safePatches s.Patches := by
  unfold setPatchSets
  rw [foldlM_nil_eq_mapOpt, mapOpt_isSome]
  congr 1
  funext p
  exact setMissingPatchSetFields_isSome p

theorem setMissingResourceFields_isSome (idx : Nat) (rs : LegacyComposedTemplate) :
    (setMissingResourceFields idx rs).isSome = safePatches rs.Patches := by
  unfold setMissingResourceFields
  simp only [Option.isSome_map', setPatches_isSome]
  split_ifs <;> rfl

/-- The name, base and readiness checks of a template returned by `setMissingResourceFields`. -/
theorem setMissingResourceFields_name (idx : Nat) (rs r : LegacyComposedTemplate)
    (h : setMissingResourceFields idx rs = some r) :
    r.Name = (if rs.Name = none ∨ rs.Name = some "" then some ("resource-" ++ toString idx)
      else rs.Name) ∧ r.Base = rs.Base ∧ r.ReadinessChecks = rs.ReadinessChecks := by
  unfold setMissingResourceFields at h
  simp only [Option.map_eq_some'] at h
  obtain ⟨patches, _, hr⟩ := h
  subst hr
  by_cases hn : rs.Name = none ∨ rs.Name = some ""
  · simp [hn, ToLower_sprintfResource]
  · simp [hn]

theorem setResources_eq_mapOpt (resources : List LegacyComposedTemplate) :
    setResources resources =
      mapOpt (fun ir => setMissingResourceFields ir.1 ir.2) resources.enum := by
  unfold setResources
  exact foldlM_nil_eq_mapOpt _ _

theorem setResources_isSome (resources : List LegacyComposedTemplate) :
    (setResources resources).isSome = resources.all fun r => safePatches r.Patches := by
  rw [setResources_eq_mapOpt, mapOpt_isSome]
  have h : ∀ (n : Nat) (l : List LegacyComposedTemplate),
      ((List.enumFrom n l).all fun ir => (setMissingResourceFields ir.1 ir.2).isSome) =
        l.all fun r => safePatches r.Patches := by
    intro n l
    induction l generalizing n with
    | nil => simp
    | cons a l ih =>
      rw [List.enumFrom_cons, List.all_cons, List.all_cons, ih, setMissingResourceFields_isSome]
  exact h 0 resources

theorem setResources_pointwise (resources out : List LegacyComposedTemplate)
    (h : setResources resources = some out) :
    out.length = resources.length ∧
      ∀ (i : Nat) (t : LegacyComposedTemplate), resources[i]? = some t →
        ∃ r, out[i]? = some r ∧ setMissingResourceFields i t = some r := by
  rw [setResources_eq_mapOpt] at h
  obtain ⟨hlen, hpt⟩ := mapOpt_eq_some_pointwise _ _ _ h
  refine ⟨by simpa using hlen, ?_⟩
  intro i t ht
  have : resources.enum[i]? = some (i, t) := by simp [List.getElem?_enum, ht]
  exact hpt i (i, t) this

theorem MigratePatchPolicyInResources_eq_map (resources : List LegacyComposedTemplate) :
    MigratePatchPolicyInResources resources =
      resources.map fun resource =>
        { ComposedTemplate := { resource with Patches := [] },
          Patches := migratePatches resource.Patches } := by
  unfold MigratePatchPolicyInResources
  rw [foldl_append_eq_map]
  simp

/-! ## The function input -/

theorem processEnvironment_isSome (env : Option EnvironmentConfiguration) :
    (processEnvironment env).isSome =
      (match env with
        | none => true
        | some e => safeEnvPatches e.Patches) := by
  unfold processEnvironment
  cases env with
  | none => rfl
  | some e =>
    by_cases hlen : e.Patches.length > 0
    · simp only [hlen, if_true, Option.isSome_map', setEnvPatches_isSome]
    · have : e.Patches = [] := List.length_eq_zero.mp (by omega)
      simp [this, safeEnvPatches]

theorem processFunctionInput_eq_some (input : Input) (raw : RawExtension) :
    processFunctionInput input = some raw ↔
      ∃ env ps rs, processEnvironment input.Environment = some env ∧
        setPatchSets input.PatchSets = some ps ∧ setResources input.Resources = some rs ∧
        raw = { Raw := "",
                Object := some
                  { apiVersion := "pt.fn.crossplane.io/v1beta1",
                    kind := "Resources",
                    environment := MigratePatchPolicyInEnvironment env,
                    patchSets := MigratePatchPolicyInPatchSets ps,
                    resources := MigratePatchPolicyInResources rs } } := by
  unfold processFunctionInput
  cases processEnvironment input.Environment with
  | none => simp
  | some env =>
    cases setPatchSets input.PatchSets with
    | none => simp
    | some ps =>
      cases setResources input.Resources with
      | none => simp
      | some rs =>
        simp only [Option.some_bind, Option.map_some', Option.some.injEq]
        constructor
        · intro h
          exact ⟨env, ps, rs, rfl, rfl, rfl, h.symm⟩
        · rintro ⟨env1, ps1, rs1, h1, h2, h3, h4⟩
          cases h1
          cases h2
          cases h3
          exact h4.symm

theorem processFunctionInput_isSome (input : Input) :
    (processFunctionInput input).isSome = input.safe := by
  unfold processFunctionInput Input.safe
  rw [← processEnvironment_isSome, ← setPatchSets_isSome, ← setResources_isSome]
  cases processEnvironment input.Environment <;> cases setPatchSets input.PatchSets <;>
    cases setResources input.Resources <;> simp

/-! ## Writes through shared pointers -/

theorem Transform_afterCall_isSome (tt : Transform) : tt.afterCall.isSome = tt.safe := by
  unfold Transform.afterCall
  rw [Option.isSome_map', setTransformTypeRequiredFields_isSome]

theorem LegacyPatch_afterCall_isSome (p : LegacyPatch) :
    p.afterCall.isSome = p.Transforms.all Transform.safe := by
  unfold LegacyPatch.afterCall
  rw [Option.isSome_map', mapOpt_isSome]
  congr 1
  funext tt
  exact Transform_afterCall_isSome tt

theorem LegacyEnvironmentPatch_afterCall_isSome (p : LegacyEnvironmentPatch) :
    p.afterCall.isSome = p.Transforms.all Transform.safe := by
  unfold LegacyEnvironmentPatch.afterCall
  rw [Option.isSome_map', mapOpt_isSome]
  congr 1
  funext tt
  exact Transform_afterCall_isSome tt

theorem mapOpt_patch_afterCall_isSome (patches : List LegacyPatch) :
    (mapOpt LegacyPatch.afterCall patches).isSome = safePatches patches := by
  rw [mapOpt_isSome]
  unfold safePatches
  congr 1
  funext p
  exact LegacyPatch_afterCall_isSome p

theorem CompositionSpec_afterCall_isSome (spec : CompositionSpec) :
    spec.afterCall.isSome =
      ((match spec.Environment with
          | none => true
          | some e => safeEnvPatches e.Patches) &&
        (spec.PatchSets.all fun s => safePatches s.Patches) &&
        (spec.Resources.all fun r => safePatches r.Patches)) := by
  have he : ((match spec.Environment with
      | none => some none
      | some e =>
        (mapOpt LegacyEnvironmentPatch.afterCall e.Patches).map fun ps =>
          some { e with Patches := ps }) : Option (Option EnvironmentConfiguration)).isSome =
      (match spec.Environment with
        | none => true
        | some e => safeEnvPatches e.Patches) := by
    cases spec.Environment with
    | none => rfl
    | some e =>
      simp only [Option.isSome_map', mapOpt_isSome]
      unfold safeEnvPatches
      congr 1
      funext p
      exact LegacyEnvironmentPatch_afterCall_isSome p
  have hp : (mapOpt LegacyPatchSet.afterCall spec.PatchSets).isSome =
      spec.PatchSets.all fun s => safePatches s.Patches := by
    rw [mapOpt_isSome]
    congr 1
    funext ps
    unfold LegacyPatchSet.afterCall
    rw [Option.isSome_map', mapOpt_patch_afterCall_isSome]
  have hr : (mapOpt LegacyComposedTemplate.afterCall spec.Resources).isSome =
      spec.Resources.all fun r => safePatches r.Patches := by
    rw [mapOpt_isSome]
    congr 1
    funext rs
    unfold LegacyComposedTemplate.afterCall
    rw [Option.isSome_map', mapOpt_patch_afterCall_isSome]
  unfold CompositionSpec.afterCall
  rw [← he, ← hp, ← hr]
  cases (match spec.Environment with
      | none => some none
      | some e =>
        (mapOpt LegacyEnvironmentPatch.afterCall e.Patches).map fun ps =>
          some { e with Patches := ps } : Option (Option EnvironmentConfiguration)) <;>
    cases mapOpt LegacyPatchSet.afterCall spec.PatchSets <;>
    cases mapOpt LegacyComposedTemplate.afterCall spec.Resources <;> simp

/-! ## The conversion -/

theorem legacyInput_PatchSets (c : Composition) : (legacyInput c).PatchSets = c.Spec.PatchSets := by
  unfold legacyInput
  by_cases h : c.Spec.PatchSets.length > 0
  · simp [h]
  · have : c.Spec.PatchSets = [] := List.length_eq_zero.mp (by omega)
    simp [this]

theorem legacyInput_Resources (c : Composition) : (legacyInput c).Resources = c.Spec.Resources := by
  unfold legacyInput
  by_cases h : c.Spec.Resources.length > 0
  · simp [h]
  · have : c.Spec.Resources = [] := List.length_eq_zero.mp (by omega)
    simp [this]

theorem legacyInput_safe (c : Composition) : (legacyInput c).safe = c.safe := by
  unfold Input.safe Composition.safe
  rw [legacyInput_PatchSets, legacyInput_Resources]
  congr 2
  unfold legacyInput
  cases c.Spec.Environment with
  | none => rfl
  | some e =>
    by_cases h : e.Patches.length > 0
    · simp [h]
    · have : e.Patches = [] := List.length_eq_zero.mp (by omega)
      simp [this, safeEnvPatches]

theorem stamped_Spec (c : Composition) (now : Time) : (c.stamped now).Spec = c.Spec := by
  unfold Composition.stamped
  split_ifs <;> rfl

theorem stamped_safe (c : Composition) (now : Time) : (c.stamped now).safe = c.safe := by
  unfold Composition.safe
  rw [stamped_Spec]

/-- The conversion of a composition that is not in pipeline mode, when it returns. -/
theorem convertPnTToPipeline_legacy (c : Composition) (functionRefName : String) (now : Time)
    (hmode : c.Spec.Mode ≠ some CompositionModePipeline) (r : Returned) :
    convertPnTToPipeline (some c) functionRefName now = some r ↔
      ∃ raw spec1, processFunctionInput (legacyInput (c.stamped now)) = some raw ∧
        (c.stamped now).Spec.afterCall = some spec1 ∧
        r = { input := some { c.stamped now with Spec := spec1 },
              value := some
                { TypeMeta := (c.stamped now).TypeMeta,
                  ObjectMeta := (c.stamped now).ObjectMeta,
                  Spec :=
                    { CompositeTypeRef := c.Spec.CompositeTypeRef,
                      WriteConnectionSecretsToNamespace := c.Spec.WriteConnectionSecretsToNamespace,
                      PublishConnectionDetailsWithStoreConfigRef :=
                        c.Spec.PublishConnectionDetailsWithStoreConfigRef,
                      Environment := c.Spec.Environment.map fun e =>
                        { DefaultData := e.DefaultData, EnvironmentConfigs := e.EnvironmentConfigs,
                          Patches := [], Policy := e.Policy },
                      PatchSets := [],
                      Resources := [],
                      Mode := some CompositionModePipeline,
                      Pipeline :=
                        [{ Step := "patch-and-transform",
                           FunctionRef :=
                             { Name := if functionRefName ≠ "" then functionRefName
                                 else defaultFunctionRefName },
                           Input := some raw }] } },
              err := none } := by
  have hs := stamped_Spec c now
  have hc1 : (if c.ObjectMeta.CreationTimestamp.IsZero = true then
      ({ c with ObjectMeta := { c.ObjectMeta with CreationTimestamp := now } } : Composition)
      else c) = c.stamped now := rfl
  unfold convertPnTToPipeline
  simp only [hmode, if_false, hc1]
  rw [hs]
  have hfr : (if functionRefName ≠ "" then ({ Name := functionRefName } : FunctionReference)
      else { Name := defaultFunctionRefName }) =
      { Name := if functionRefName ≠ "" then functionRefName else defaultFunctionRefName } := by
    split_ifs <;> rfl
  have henv : (match c.Spec.Environment with
      | none => none
      | some e => some (EnvironmentConfiguration.mk e.DefaultData e.EnvironmentConfigs [] e.Policy)) =
      c.Spec.Environment.map fun e =>
        EnvironmentConfiguration.mk e.DefaultData e.EnvironmentConfigs [] e.Policy := by
    cases c.Spec.Environment <;> rfl
  rw [hfr, henv]
  cases processFunctionInput (legacyInput (c.stamped now)) with
  | none => simp
  | some raw =>
    cases c.Spec.afterCall with
    | none => simp
    | some spec1 =>
      simp only [Option.some_bind, Option.map_some', Option.some.injEq]
      constructor
      · intro h
        exact ⟨raw, spec1, rfl, rfl, h.symm⟩
      · rintro ⟨raw1, spec2, h1, h2, h3⟩
        cases h1
        cases h2
        exact h3.symm

/-- The conversion of a composition that is not in pipeline mode returns exactly when no transform
names an absent sub-object. -/
theorem convertPnTToPipeline_legacy_isSome (c : Composition) (functionRefName : String) (now : Time)
    (hmode : c.Spec.Mode ≠ some CompositionModePipeline) :
    (convertPnTToPipeline (some c) functionRefName now).isSome = c.safe := by
  have h1 := processFunctionInput_isSome (legacyInput (c.stamped now))
  rw [legacyInput_safe, stamped_safe] at h1
  have h2 := CompositionSpec_afterCall_isSome (c.stamped now).Spec
  rw [stamped_Spec] at h2
  have h2b : c.Spec.afterCall.isSome = c.safe := h2
  cases hr : convertPnTToPipeline (some c) functionRefName now with
  | none =>
    cases hsafe : c.safe with
    | false => rfl
    | true =>
      rw [hsafe] at h1 h2b
      obtain ⟨raw, hraw⟩ := Option.isSome_iff_exists.mp h1
      obtain ⟨spec1, hspec⟩ := Option.isSome_iff_exists.mp h2b
      have := (convertPnTToPipeline_legacy c functionRefName now hmode _).mpr
        ⟨raw, spec1, hraw, by rw [stamped_Spec]; exact hspec, rfl⟩
      rw [hr] at this
      cases this
  | some r =>
    obtain ⟨raw, spec1, hraw, _, _⟩ := (convertPnTToPipeline_legacy c functionRefName now hmode r).mp hr
    rw [hraw] at h1
    simpa using h1

/-- Witness of C3 at the one-element list holding `examplePatch`. -/
theorem migratePatches_pointwise_witness :
    ∃ r, (migratePatches [examplePatch])[0]? = some r ∧
      r.Patch = { examplePatch with Policy := none } ∧
      r.Policy = examplePatch.Policy.bind migratePatchPolicy ∧
      (∀ ff : Option FromFieldPathPolicy,
        examplePatch.Policy =
            some (LegacyPatchPolicy.mk ff (some (MergeOptions.mk (some false) (some true)))) →
          r.Policy.bind (fun q => q.ToFieldPath) =
            some ToFieldPathPolicy.ForceMergeObjectsAppendArrays) :=
  (migratePatches_pointwise [examplePatch] []).2.1 0 examplePatch rfl

/-! ## The migrated resources section -/

/-- Position by position, the `resources` section of a function input that was returned. -/
theorem processFunctionInput_resources (input : Input) (raw : RawExtension)
    (h : processFunctionInput input = some raw) :
    ∃ doc, raw.Object = some doc ∧ doc.resources.length = input.Resources.length ∧
      ∀ (i : Nat) (t : LegacyComposedTemplate), input.Resources[i]? = some t →
        ∃ m, doc.resources[i]? = some m ∧
          m.ComposedTemplate.Name =
            (if t.Name = none ∨ t.Name = some "" then some ("resource-" ++ toString i)
              else t.Name) ∧
          m.ComposedTemplate.Base = t.Base ∧
          m.ComposedTemplate.ReadinessChecks = t.ReadinessChecks := by
  obtain ⟨env, ps, rs, _, _, hrs, hraw⟩ := (processFunctionInput_eq_some input raw).mp h
  obtain ⟨hlen, hpt⟩ := setResources_pointwise _ _ hrs
  subst hraw
  refine ⟨_, rfl, ?_, ?_⟩
  · simp [MigratePatchPolicyInResources_eq_map, hlen]
  · intro i t ht
    obtain ⟨r, hr, hset⟩ := hpt i t ht
    obtain ⟨hname, hbase, hready⟩ := setMissingResourceFields_name i t r hset
    refine ⟨{ ComposedTemplate := { r with Patches := [] }, Patches := migratePatches r.Patches },
      ?_, hname, hbase, hready⟩
    simp [MigratePatchPolicyInResources_eq_map, hr]

/-- C4: in the function input built by `processFunctionInput`, every template whose input `Name` is
nil or empty is named "resource-" followed by the decimal form of its zero-based position in the
input list. The call returns exactly when no transform names an absent sub-object. -/
theorem processFunctionInput_synthetic_name (input : Input) :
    (processFunctionInput input).isSome = input.safe ∧
    ∀ raw, processFunctionInput input = some raw →
      ∃ doc, raw.Object = some doc ∧
        ∀ (i : Nat) (t : LegacyComposedTemplate), input.Resources[i]? = some t →
          (t.Name = none ∨ t.Name = some "") →
          ∃ m, doc.resources[i]? = some m ∧
            m.ComposedTemplate.Name = some ("resource-" ++ toString i) := by
  refine ⟨processFunctionInput_isSome input, ?_⟩
  intro raw h
  obtain ⟨doc, hdoc, _, hpt⟩ := processFunctionInput_resources input raw h
  refine ⟨doc, hdoc, ?_⟩
  intro i t ht hanon
  obtain ⟨m, hm, hname, _, _⟩ := hpt i t ht
  exact ⟨m, hm, by rw [hname, if_pos hanon]⟩

/-- Witness of C4 at the input of `exampleComposition`, whose second template is anonymous. -/
theorem processFunctionInput_synthetic_name_witness :
    ∃ doc, (RawExtension.mk "" (some exampleDocument)).Object = some doc ∧
      ∀ (i : Nat) (t : LegacyComposedTemplate),
        (legacyInput exampleComposition).Resources[i]? = some t →
        (t.Name = none ∨ t.Name = some "") →
        ∃ m, doc.resources[i]? = some m ∧
          m.ComposedTemplate.Name = some ("resource-" ++ toString i) :=
  (processFunctionInput_synthetic_name (legacyInput exampleComposition)).2
    (RawExtension.mk "" (some exampleDocument)) (by decide)

/-- C5: for a composition that is not in pipeline mode, the `resources` section of the returned
pipeline step has one template per input template, in the same order; every template of the section
has a set, non-empty `Name`, and a template whose input `Name` was set and non-empty keeps it. The
call returns exactly when no transform names an absent sub-object. -/
theorem convertPnTToPipeline_no_anonymous_templates (c : Composition) (functionRefName : String)
    (now : Time) (hmode : c.Spec.Mode ≠ some CompositionModePipeline) :
    (convertPnTToPipeline (some c) functionRefName now).isSome = c.safe ∧
    ∀ r, convertPnTToPipeline (some c) functionRefName now = some r →
      ∃ cp step raw doc, r.value = some cp ∧ cp.Spec.Pipeline = [step] ∧
        step.Input = some raw ∧ raw.Object = some doc ∧
        doc.resources.length = c.Spec.Resources.length ∧
        (∀ m ∈ doc.resources, ∃ n, m.ComposedTemplate.Name = some n ∧ n ≠ "") ∧
        (∀ (i : Nat) (t : LegacyComposedTemplate), c.Spec.Resources[i]? = some t →
          ∃ m, doc.resources[i]? = some m ∧
            m.ComposedTemplate.Base = t.Base ∧
            m.ComposedTemplate.ReadinessChecks = t.ReadinessChecks ∧
            (∀ n, t.Name = some n → n ≠ "" → m.ComposedTemplate.Name = some n)) := by
  refine ⟨convertPnTToPipeline_legacy_isSome c functionRefName now hmode, ?_⟩
  intro r hr
  obtain ⟨raw, spec1, hraw, _, hrdef⟩ :=
    (convertPnTToPipeline_legacy c functionRefName now hmode r).mp hr
  obtain ⟨doc, hdoc, hlen, hpt⟩ := processFunctionInput_resources _ raw hraw
  rw [legacyInput_Resources, stamped_Spec] at hlen hpt
  subst hrdef
  refine ⟨_, _, raw, doc, rfl, rfl, rfl, hdoc, hlen, ?_, ?_⟩
  · intro m hm
    obtain ⟨i, hi, hget⟩ := List.getElem_of_mem hm
    have hi2 : i < c.Spec.Resources.length := by omega
    obtain ⟨m1, hm1, hname, _, _⟩ := hpt i c.Spec.Resources[i] (List.getElem?_eq_getElem hi2)
    have hmm : m1 = m := by
      rw [List.getElem?_eq_getElem hi] at hm1
      rw [← hget]
      exact (Option.some.inj hm1).symm
    subst hmm
    by_cases hanon : c.Spec.Resources[i].Name = none ∨ c.Spec.Resources[i].Name = some ""
    · rw [if_pos hanon] at hname
      exact ⟨_, hname, sprintfResource_ne_empty i⟩
    · rw [if_neg hanon] at hname
      cases hn : c.Spec.Resources[i].Name with
      | none => exact absurd (Or.inl hn) hanon
      | some n =>
        refine ⟨n, by rw [hname, hn], ?_⟩
        intro hempty
        exact hanon (Or.inr (by rw [hn, hempty]))
  · intro i t ht
    obtain ⟨m, hm, hname, hbase, hready⟩ := hpt i t ht
    refine ⟨m, hm, hbase, hready, ?_⟩
    intro n hn hne
    have hanon : ¬ (t.Name = none ∨ t.Name = some "") := by
      rw [hn]
      simp [hne]
    rw [hname, if_neg hanon, hn]

/-- Witness of C5 at `exampleComposition`, converted at time 7 with the default function name. -/
theorem convertPnTToPipeline_no_anonymous_templates_witness :
    ∃ cp step raw doc, exampleReturned.value = some cp ∧ cp.Spec.Pipeline = [step] ∧
      step.Input = some raw ∧ raw.Object = some doc ∧
      doc.resources.length = exampleComposition.Spec.Resources.length ∧
      (∀ m ∈ doc.resources, ∃ n, m.ComposedTemplate.Name = some n ∧ n ≠ "") ∧
      (∀ (i : Nat) (t : LegacyComposedTemplate), exampleComposition.Spec.Resources[i]? = some t →
        ∃ m, doc.resources[i]? = some m ∧
          m.ComposedTemplate.Base = t.Base ∧
          m.ComposedTemplate.ReadinessChecks = t.ReadinessChecks ∧
          (∀ n, t.Name = some n → n ≠ "" → m.ComposedTemplate.Name = some n)) :=
  (convertPnTToPipeline_no_anonymous_templates exampleComposition "" (Time.mk 7) (by decide)).2
    exampleReturned (by decide)

/-! ## The conversion as a whole -/

/-- C6: a composition whose mode is set and equal to Pipeline is returned as it is, with no error
and for every function name; no field changes, and a zero creation timestamp stays zero. -/
theorem convertPnTToPipeline_pipeline_identity (c : Composition) (functionRefName : String)
    (now : Time) (hmode : c.Spec.Mode = some CompositionModePipeline) :
    convertPnTToPipeline (some c) functionRefName now =
      some { input := some c, value := some c, err := none } := by
  simp [convertPnTToPipeline, hmode]

/-- Witness of C6 at the converted example, with its creation timestamp reset to zero. -/
theorem convertPnTToPipeline_pipeline_identity_witness :
    convertPnTToPipeline
        (some { exampleConverted "fn" with
                ObjectMeta := { exampleComposition.ObjectMeta with CreationTimestamp := Time.mk 0 } })
        "other" (Time.mk 9) =
      some { input := some { exampleConverted "fn" with
                             ObjectMeta :=
                               { exampleComposition.ObjectMeta with CreationTimestamp := Time.mk 0 } },
             value := some { exampleConverted "fn" with
                             ObjectMeta :=
                               { exampleComposition.ObjectMeta with CreationTimestamp := Time.mk 0 } },
             err := none } :=
  convertPnTToPipeline_pipeline_identity _ "other" (Time.mk 9) (by decide)

/-- The composition returned for a non-nil argument is in pipeline mode, and the error is nil. -/
theorem convertPnTToPipeline_returned (c : Composition) (functionRefName : String) (now : Time)
    (r : Returned) (h : convertPnTToPipeline (some c) functionRefName now = some r) :
    r.err = none ∧ ∃ cp, r.value = some cp ∧ cp.Spec.Mode = some CompositionModePipeline := by
  by_cases hmode : c.Spec.Mode = some CompositionModePipeline
  · rw [convertPnTToPipeline_pipeline_identity c functionRefName now hmode] at h
    cases h
    exact ⟨rfl, c, rfl, hmode⟩
  · obtain ⟨raw, spec1, _, _, hrdef⟩ :=
      (convertPnTToPipeline_legacy c functionRefName now hmode r).mp h
    subst hrdef
    exact ⟨rfl, _, rfl, rfl⟩

/-- C7: converting twice is a no-op. When the conversion of a non-nil composition returns, with
function name `f`, converting its result with any function name `g` (at any later time) returns
that result unchanged, with no error. -/
theorem convertPnTToPipeline_twice (c : Composition) (f g : String) (now later : Time)
    (r : Returned) (h : convertPnTToPipeline (some c) f now = some r) :
    r.err = none ∧ r.value ≠ none ∧
      convertPnTToPipeline r.value g later =
        some { input := r.value, value := r.value, err := none } := by
  obtain ⟨herr, cp, hcp, hmode⟩ := convertPnTToPipeline_returned c f now r h
  refine ⟨herr, by simp [hcp], ?_⟩
  rw [hcp]
  exact convertPnTToPipeline_pipeline_identity cp g later hmode

/-- Witness of C7 at `exampleComposition`: the second conversion, under another function name,
returns the first result. -/
theorem convertPnTToPipeline_twice_witness :
    exampleReturned.err = none ∧ exampleReturned.value ≠ none ∧
      convertPnTToPipeline exampleReturned.value "other-function" (Time.mk 9) =
        some { input := exampleReturned.value, value := exampleReturned.value, err := none } :=
  convertPnTToPipeline_twice exampleComposition "" "other-function" (Time.mk 7) (Time.mk 9)
    exampleReturned (by decide)

/-- The errors of `convertPnTToPipeline`: a nil composition gives the error
"provided Composition is empty" and no composition; whenever the call returns for a non-nil
composition the error is nil; the call returns for a non-nil composition in pipeline mode, and
otherwise exactly when no transform names an absent sub-object. -/
theorem convertPnTToPipeline_errors (functionRefName : String) (now : Time) :
    convertPnTToPipeline none functionRefName now =
        some { input := none, value := none, err := some "provided Composition is empty" } ∧
    (∀ (c : Composition) (r : Returned),
      convertPnTToPipeline (some c) functionRefName now = some r → r.err = none) ∧
    (∀ c : Composition, c.Spec.Mode ≠ some CompositionModePipeline →
      (convertPnTToPipeline (some c) functionRefName now).isSome = c.safe) := by
  refine ⟨rfl, ?_, ?_⟩
  · intro c r h
    exact (convertPnTToPipeline_returned c functionRefName now r h).1
  · intro c hmode
    exact convertPnTToPipeline_legacy_isSome c functionRefName now hmode

/-- C8, at the failing input: the conversion of the non-nil composition `exampleAbsentMath`, whose
transform has the explicit `Type` Math and no `Math` sub-object, does not return a nil error: it
panics on the nil dereference of line 367. -/
theorem convertPnTToPipeline_absent_math_panics :
    convertPnTToPipeline (some exampleAbsentMath) "" (Time.mk 7) = none := by
  decide

/-! ## What the conversion writes to its argument -/

theorem mapOpt_map_congr {α β : Type} (f : α → Option α) (g : α → β)
    (hfg : ∀ x r, f x = some r → g r = g x) (l out : List α) (h : mapOpt f l = some out) :
    out.map g = l.map g := by
  induction l generalizing out with
  | nil =>
    simp [mapOpt] at h
    subst h
    rfl
  | cons a l ih =>
    simp only [mapOpt] at h
    cases hfa : f a with
    | none => simp [hfa] at h
    | some b =>
      cases hl : mapOpt f l with
      | none => simp [hfa, hl] at h
      | some tl =>
        simp [hfa, hl] at h
        subst h
        simp [hfg a b hfa, ih tl hl]

theorem Transform_afterCall_eraseSubTypes (tt r : Transform) (h : tt.afterCall = some r) :
    r.eraseSubTypes = tt.eraseSubTypes := by
  unfold Transform.afterCall at h
  simp only [Option.map_eq_some'] at h
  obtain ⟨r1, hr1, hr⟩ := h
  obtain ⟨_, _, _, hm, hs⟩ := setTransformTypeRequiredFields_frame tt r1 hr1
  subst hr
  simp [Transform.eraseSubTypes, hm, hs]

theorem mapOpt_transform_afterCall_erase (l out : List Transform)
    (h : mapOpt Transform.afterCall l = some out) :
    out.map Transform.eraseSubTypes = l.map Transform.eraseSubTypes :=
  mapOpt_map_congr _ _ Transform_afterCall_eraseSubTypes l out h

theorem LegacyPatch_afterCall_eraseSubTypes (p r : LegacyPatch) (h : p.afterCall = some r) :
    r.eraseSubTypes = p.eraseSubTypes := by
  unfold LegacyPatch.afterCall at h
  simp only [Option.map_eq_some'] at h
  obtain ⟨ts, hts, hr⟩ := h
  subst hr
  simp [LegacyPatch.eraseSubTypes, mapOpt_transform_afterCall_erase _ _ hts]

theorem LegacyEnvironmentPatch_afterCall_eraseSubTypes (p r : LegacyEnvironmentPatch)
    (h : p.afterCall = some r) : r.eraseSubTypes = p.eraseSubTypes := by
  unfold LegacyEnvironmentPatch.afterCall at h
  simp only [Option.map_eq_some'] at h
  obtain ⟨ts, hts, hr⟩ := h
  subst hr
  simp [LegacyEnvironmentPatch.eraseSubTypes, mapOpt_transform_afterCall_erase _ _ hts]

theorem mapOpt_patch_afterCall_erase (l out : List LegacyPatch)
    (h : mapOpt LegacyPatch.afterCall l = some out) :
    out.map LegacyPatch.eraseSubTypes = l.map LegacyPatch.eraseSubTypes :=
  mapOpt_map_congr _ _ LegacyPatch_afterCall_eraseSubTypes l out h

/-- The writes of a conversion that returned reach nothing but the sub-types of transforms. -/
theorem CompositionSpec_afterCall_eraseSubTypes (c : Composition) (spec1 : CompositionSpec)
    (h : c.Spec.afterCall = some spec1) :
    ({ c with Spec := spec1 } : Composition).eraseSubTypes = c.eraseSubTypes := by
  unfold CompositionSpec.afterCall at h
  simp only [Option.bind_eq_some, Option.map_eq_some'] at h
  obtain ⟨env, henv, patchSets, hps, resources, hrs, hspec⟩ := h
  subst hspec
  have h1 : (env.map fun e =>
      ({ e with Patches := e.Patches.map LegacyEnvironmentPatch.eraseSubTypes } :
        EnvironmentConfiguration)) =
      c.Spec.Environment.map fun e =>
        { e with Patches := e.Patches.map LegacyEnvironmentPatch.eraseSubTypes } := by
    cases hce : c.Spec.Environment with
    | none =>
      rw [hce] at henv
      simp at henv
      subst henv
      rfl
    | some e =>
      rw [hce] at henv
      simp only [Option.map_eq_some'] at henv
      obtain ⟨ps, hps2, hpe⟩ := henv
      subst hpe
      have := mapOpt_map_congr _ _ LegacyEnvironmentPatch_afterCall_eraseSubTypes _ _ hps2
      simp [this]
  have h2 : (patchSets.map fun s =>
      ({ s with Patches := s.Patches.map LegacyPatch.eraseSubTypes } : LegacyPatchSet)) =
      c.Spec.PatchSets.map fun s =>
        { s with Patches := s.Patches.map LegacyPatch.eraseSubTypes } := by
    apply mapOpt_map_congr LegacyPatchSet.afterCall _ _ _ _ hps
    intro x r hx
    unfold LegacyPatchSet.afterCall at hx
    simp only [Option.map_eq_some'] at hx
    obtain ⟨ps, hps2, hr⟩ := hx
    subst hr
    simp [mapOpt_patch_afterCall_erase _ _ hps2]
  have h3 : (resources.map fun r =>
      ({ r with Patches := r.Patches.map LegacyPatch.eraseSubTypes } : LegacyComposedTemplate)) =
      c.Spec.Resources.map fun r =>
        { r with Patches := r.Patches.map LegacyPatch.eraseSubTypes } := by
    apply mapOpt_map_congr LegacyComposedTemplate.afterCall _ _ _ _ hrs
    intro x r hx
    unfold LegacyComposedTemplate.afterCall at hx
    simp only [Option.map_eq_some'] at hx
    obtain ⟨ps, hps2, hr⟩ := hx
    subst hr
    simp [mapOpt_patch_afterCall_erase _ _ hps2]
  simp only [Composition.eraseSubTypes, h1, h2, h3]

/-- C9, refuted at `exampleBare`: the conversion of this non-nil composition, which is not in
pipeline mode and has a zero creation timestamp, returns and leaves its argument with the creation
timestamp 7 of the call, not with the value it had before. -/
theorem convertPnTToPipeline_mutates_timestamp :
    ∃ r, convertPnTToPipeline (some exampleBare) "" (Time.mk 7) = some r ∧
      r.input ≠ some exampleBare ∧
      r.input.map (fun c => c.ObjectMeta.CreationTimestamp) = some (Time.mk 7) ∧
      exampleBare.ObjectMeta.CreationTimestamp = Time.mk 0 :=
  ⟨{ input := some (exampleBare.stamped (Time.mk 7)),
     value := (convertPnTToPipeline (some exampleBare) "" (Time.mk 7)).bind fun r => r.value,
     err := none },
   by decide, by decide, by decide, by decide⟩

/-- C9 as amended: after the conversion of a composition that is not in pipeline mode, the
composition the argument points to is the input with a zero creation timestamp replaced by the
time of the call, up to the `Type` discriminants inside the `Math` and `String` sub-objects of
transforms, on which nothing is stated; a non-zero creation timestamp is kept. The call returns
exactly when no transform names an absent sub-object. -/
theorem convertPnTToPipeline_input_after (c : Composition) (functionRefName : String)
    (now : Time) (hmode : c.Spec.Mode ≠ some CompositionModePipeline) :
    (convertPnTToPipeline (some c) functionRefName now).isSome = c.safe ∧
    ∀ r, convertPnTToPipeline (some c) functionRefName now = some r →
      ∃ c1, r.input = some c1 ∧
        c1.eraseSubTypes = (c.stamped now).eraseSubTypes ∧
        c1.TypeMeta = c.TypeMeta ∧
        c1.ObjectMeta =
          { c.ObjectMeta with
            CreationTimestamp :=
              if c.ObjectMeta.CreationTimestamp.IsZero then now
              else c.ObjectMeta.CreationTimestamp } := by
  refine ⟨convertPnTToPipeline_legacy_isSome c functionRefName now hmode, ?_⟩
  intro r hr
  obtain ⟨raw, spec1, _, hspec, hrdef⟩ :=
    (convertPnTToPipeline_legacy c functionRefName now hmode r).mp hr
  subst hrdef
  refine ⟨_, rfl, CompositionSpec_afterCall_eraseSubTypes (c.stamped now) spec1 hspec, ?_, ?_⟩
  · unfold Composition.stamped
    split_ifs <;> rfl
  · unfold Composition.stamped
    split_ifs <;> rfl

/-- Witness of C9 as amended, at `exampleComposition` converted at time 7. -/
theorem convertPnTToPipeline_input_after_witness :
    ∃ c1, exampleReturned.input = some c1 ∧
      c1.eraseSubTypes = (exampleComposition.stamped (Time.mk 7)).eraseSubTypes ∧
      c1.TypeMeta = exampleComposition.TypeMeta ∧
      c1.ObjectMeta =
        { exampleComposition.ObjectMeta with
          CreationTimestamp :=
            if exampleComposition.ObjectMeta.CreationTimestamp.IsZero then Time.mk 7
            else exampleComposition.ObjectMeta.CreationTimestamp } :=
  (convertPnTToPipeline_input_after exampleComposition "" (Time.mk 7) (by decide)).2
    exampleReturned (by decide)

/-- C10: the composition returned for a composition that is not in pipeline mode is pipeline-shaped
only. Its mode is Pipeline, its pipeline has exactly one step, named "patch-and-transform", whose
function reference is the supplied name, or "function-patch-and-transform" when the supplied name is
empty, and it carries no inline resources and no inline patch sets. The call returns exactly when
no transform names an absent sub-object. -/
theorem convertPnTToPipeline_pipeline_shaped (c : Composition) (functionRefName : String)
    (now : Time) (hmode : c.Spec.Mode ≠ some CompositionModePipeline) :
    (convertPnTToPipeline (some c) functionRefName now).isSome = c.safe ∧
    ∀ r, convertPnTToPipeline (some c) functionRefName now = some r →
      r.err = none ∧
      ∃ cp step, r.value = some cp ∧
        cp.Spec.Mode = some CompositionModePipeline ∧
        cp.Spec.Pipeline = [step] ∧
        step.Step = "patch-and-transform" ∧
        (functionRefName ≠ "" → step.FunctionRef.Name = functionRefName) ∧
        (functionRefName = "" → step.FunctionRef.Name = "function-patch-and-transform") ∧
        cp.Spec.Resources = [] ∧
        cp.Spec.PatchSets = [] := by
  refine ⟨convertPnTToPipeline_legacy_isSome c functionRefName now hmode, ?_⟩
  intro r hr
  obtain ⟨raw, spec1, _, _, hrdef⟩ :=
    (convertPnTToPipeline_legacy c functionRefName now hmode r).mp hr
  subst hrdef
  refine ⟨rfl, _, _, rfl, rfl, rfl, rfl, ?_, ?_, rfl, rfl⟩
  · intro hne
    simp [hne]
  · intro he
    simp [he, defaultFunctionRefName]

/-- Witness of C10 at `exampleComposition`, converted at time 7 with the function name left
empty. -/
theorem convertPnTToPipeline_pipeline_shaped_witness :
    exampleReturned.err = none ∧
    ∃ cp step, exampleReturned.value = some cp ∧
      cp.Spec.Mode = some CompositionModePipeline ∧
      cp.Spec.Pipeline = [step] ∧
      step.Step = "patch-and-transform" ∧
      (("" : String) ≠ "" → step.FunctionRef.Name = "") ∧
      (("" : String) = "" → step.FunctionRef.Name = "function-patch-and-transform") ∧
      cp.Spec.Resources = [] ∧
      cp.Spec.PatchSets = [] :=
  (convertPnTToPipeline_pipeline_shaped exampleComposition "" (Time.mk 7) (by decide)).2
    exampleReturned (by decide)

/-! ## Patch defaults -/

/-- What `setMissingPatchFields` returns: the type is defaulted, the transforms are processed in
order, the other fields are kept. -/
theorem setMissingPatchFields_spec (p r : LegacyPatch) (h : setMissingPatchFields p = some r) :
    r.Type_ = (if p.Type_ = "" then PatchTypeFromCompositeFieldPath else p.Type_) ∧
      r.FromFieldPath = p.FromFieldPath ∧ r.Combine = p.Combine ∧
      r.ToFieldPath = p.ToFieldPath ∧ r.PatchSetName = p.PatchSetName ∧ r.Policy = p.Policy ∧
      mapOpt setTransformTypeRequiredFields p.Transforms = some r.Transforms := by
  unfold setMissingPatchFields at h
  by_cases hlen : p.Transforms.length = 0
  · have hnil : p.Transforms = [] := List.length_eq_zero.mp hlen
    by_cases h0 : p.Type_ = ""
    · simp [h0, hnil] at h
      subst h
      simp [h0, hnil, mapOpt]
    · simp [h0, hnil] at h
      subst h
      simp [h0, hnil, mapOpt]
  · by_cases h0 : p.Type_ = ""
    · simp [h0, hlen, setTransforms_eq_mapOpt] at h
      obtain ⟨t, ht, hr⟩ := h
      subst hr
      simp [h0, ht]
    · simp [h0, hlen, setTransforms_eq_mapOpt] at h
      obtain ⟨t, ht, hr⟩ := h
      subst hr
      simp [h0, ht]

/-- What `setMissingEnvironmentPatchFields` returns: the type is defaulted, the transforms are
processed in order, the other fields are kept. -/
theorem setMissingEnvironmentPatchFields_spec (p r : LegacyEnvironmentPatch)
    (h : setMissingEnvironmentPatchFields p = some r) :
    r.Type_ = (if p.Type_ = "" then PatchTypeFromCompositeFieldPath else p.Type_) ∧
      r.FromFieldPath = p.FromFieldPath ∧ r.Combine = p.Combine ∧
      r.ToFieldPath = p.ToFieldPath ∧ r.Policy = p.Policy ∧
      mapOpt setTransformTypeRequiredFields p.Transforms = some r.Transforms := by
  unfold setMissingEnvironmentPatchFields at h
  by_cases hlen : p.Transforms.length = 0
  · have hnil : p.Transforms = [] := List.length_eq_zero.mp hlen
    by_cases h0 : p.Type_ = ""
    · simp [h0, hnil] at h
      subst h
      simp [h0, hnil, mapOpt]
    · simp [h0, hnil] at h
      subst h
      simp [h0, hnil, mapOpt]
  · by_cases h0 : p.Type_ = ""
    · simp [h0, hlen, setTransforms_eq_mapOpt] at h
      obtain ⟨t, ht, hr⟩ := h
      subst hr
      simp [h0, ht]
    · simp [h0, hlen, setTransforms_eq_mapOpt] at h
      obtain ⟨t, ht, hr⟩ := h
      subst hr
      simp [h0, ht]

theorem migrateEnvPatch_paths (q : LegacyEnvironmentPatch) :
    (migrateEnvPatch q).EnvironmentPatch.FromFieldPath = q.FromFieldPath ∧
      (migrateEnvPatch q).EnvironmentPatch.ToFieldPath = q.ToFieldPath := by
  unfold migrateEnvPatch
  cases q.Policy <;> simp

/-! ## The environment -/

/-- The `environment` section of a function input that was returned. -/
theorem processFunctionInput_environment (input : Input) (raw : RawExtension)
    (h : processFunctionInput input = some raw) :
    ∃ doc, raw.Object = some doc ∧
      (input.Environment = none → doc.environment = none) ∧
      (∀ e, input.Environment = some e → e.Patches = [] → doc.environment = none) ∧
      (∀ e, input.Environment = some e → e.Patches ≠ [] →
        ∃ qs, mapOpt setMissingEnvironmentPatchFields e.Patches = some qs ∧
          doc.environment = some { Patches := qs.map migrateEnvPatch }) := by
  obtain ⟨env, ps, rs, henv, _, _, hraw⟩ := (processFunctionInput_eq_some input raw).mp h
  subst hraw
  refine ⟨_, rfl, ?_, ?_, ?_⟩
  · intro hnone
    rw [hnone] at henv
    simp [processEnvironment] at henv
    subst henv
    rfl
  · intro e he hnil
    rw [he] at henv
    simp [processEnvironment, hnil] at henv
    subst henv
    rfl
  · intro e he hne
    have hlen : e.Patches.length > 0 := List.length_pos.mpr hne
    rw [he] at henv
    simp only [processEnvironment, hlen, if_true, Option.map_eq_some'] at henv
    obtain ⟨qs, hqs, hq⟩ := henv
    subst hq
    unfold setEnvPatches at hqs
    rw [foldlM_nil_eq_mapOpt] at hqs
    refine ⟨qs, hqs, ?_⟩
    have hqlen : qs.length = e.Patches.length := (mapOpt_eq_some_pointwise _ _ _ hqs).1
    have hqne : ¬ qs.length = 0 := by omega
    simp [MigratePatchPolicyInEnvironment, hqne, migrateEnvPatches_eq_map]

theorem legacyInput_Environment (c : Composition) :
    (c.Spec.Environment = none → (legacyInput c).Environment = none) ∧
    (∀ e, c.Spec.Environment = some e → e.Patches = [] → (legacyInput c).Environment = none) ∧
    (∀ e, c.Spec.Environment = some e → e.Patches ≠ [] →
      ∃ e1, (legacyInput c).Environment = some e1 ∧ e1.Patches = e.Patches) := by
  unfold legacyInput
  refine ⟨?_, ?_, ?_⟩
  · intro h
    simp [h]
  · intro e h hnil
    simp [h, hnil]
  · intro e h hne
    have hlen : e.Patches.length > 0 := List.length_pos.mpr hne
    simp [h, hlen]

/-- C11: the environment split. The returned composition has an environment exactly when the input
has one, and it then carries the input's `DefaultData`, `EnvironmentConfigs` and `Policy` and no
patches; the `environment` section of the function input is nil when the input has no environment
patches and otherwise holds, position by position, the migration of each input environment patch.
The call returns exactly when no transform names an absent sub-object. -/
theorem convertPnTToPipeline_environment_split (c : Composition) (functionRefName : String)
    (now : Time) (hmode : c.Spec.Mode ≠ some CompositionModePipeline) :
    (convertPnTToPipeline (some c) functionRefName now).isSome = c.safe ∧
    ∀ r, convertPnTToPipeline (some c) functionRefName now = some r →
      ∃ cp step raw doc, r.value = some cp ∧ cp.Spec.Pipeline = [step] ∧
        step.Input = some raw ∧ raw.Object = some doc ∧
        (cp.Spec.Environment = none ↔ c.Spec.Environment = none) ∧
        (∀ e, c.Spec.Environment = some e →
          cp.Spec.Environment =
            some (EnvironmentConfiguration.mk e.DefaultData e.EnvironmentConfigs [] e.Policy)) ∧
        (c.Spec.Environment = none → doc.environment = none) ∧
        (∀ e, c.Spec.Environment = some e → e.Patches = [] → doc.environment = none) ∧
        (∀ e, c.Spec.Environment = some e → e.Patches ≠ [] →
          ∃ env, doc.environment = some env ∧ env.Patches.length = e.Patches.length ∧
            ∀ (i : Nat) (p : LegacyEnvironmentPatch), e.Patches[i]? = some p →
              ∃ q m, setMissingEnvironmentPatchFields p = some q ∧
                env.Patches[i]? = some m ∧ m = migrateEnvPatch q ∧
                m.EnvironmentPatch.FromFieldPath = p.FromFieldPath ∧
                m.EnvironmentPatch.ToFieldPath = p.ToFieldPath) := by
  refine ⟨convertPnTToPipeline_legacy_isSome c functionRefName now hmode, ?_⟩
  intro r hr
  obtain ⟨raw, spec1, hraw, _, hrdef⟩ :=
    (convertPnTToPipeline_legacy c functionRefName now hmode r).mp hr
  obtain ⟨doc, hdoc, hd1, hd2, hd3⟩ := processFunctionInput_environment _ raw hraw
  obtain ⟨hl1, hl2, hl3⟩ := legacyInput_Environment (c.stamped now)
  rw [stamped_Spec] at hl1 hl2 hl3
  subst hrdef
  refine ⟨_, _, raw, doc, rfl, rfl, rfl, hdoc, ?_, ?_, ?_, ?_, ?_⟩
  · cases c.Spec.Environment <;> simp
  · intro e he
    simp [he]
  · intro hnone
    exact hd1 (hl1 hnone)
  · intro e he hnil
    exact hd1 (hl2 e he hnil)
  · intro e he hne
    obtain ⟨e1, he1, hp1⟩ := hl3 e he hne
    obtain ⟨qs, hqs, hdenv⟩ := hd3 e1 he1 (by rw [hp1]; exact hne)
    rw [hp1] at hqs
    obtain ⟨hqlen, hqpt⟩ := mapOpt_eq_some_pointwise _ _ _ hqs
    refine ⟨_, hdenv, by simp [hqlen], ?_⟩
    intro i p hp
    obtain ⟨q, hq, hset⟩ := hqpt i p hp
    obtain ⟨_, hff, _, htf, _, _⟩ := setMissingEnvironmentPatchFields_spec p q hset
    refine ⟨q, migrateEnvPatch q, hset, by simp [hq], rfl, ?_, ?_⟩
    · rw [(migrateEnvPatch_paths q).1, hff]
    · rw [(migrateEnvPatch_paths q).2, htf]

/-- Witness of C11 at `exampleEnvironment`, converted at time 7 with the function name "fn". -/
theorem convertPnTToPipeline_environment_split_witness :
    ∃ cp step raw doc, exampleEnvironmentReturned.value = some cp ∧ cp.Spec.Pipeline = [step] ∧
      step.Input = some raw ∧ raw.Object = some doc ∧
      (cp.Spec.Environment = none ↔ exampleEnvironment.Spec.Environment = none) ∧
      (∀ e, exampleEnvironment.Spec.Environment = some e →
        cp.Spec.Environment =
          some (EnvironmentConfiguration.mk e.DefaultData e.EnvironmentConfigs [] e.Policy)) ∧
      (exampleEnvironment.Spec.Environment = none → doc.environment = none) ∧
      (∀ e, exampleEnvironment.Spec.Environment = some e → e.Patches = [] →
        doc.environment = none) ∧
      (∀ e, exampleEnvironment.Spec.Environment = some e → e.Patches ≠ [] →
        ∃ env, doc.environment = some env ∧ env.Patches.length = e.Patches.length ∧
          ∀ (i : Nat) (p : LegacyEnvironmentPatch), e.Patches[i]? = some p →
            ∃ q m, setMissingEnvironmentPatchFields p = some q ∧
              env.Patches[i]? = some m ∧ m = migrateEnvPatch q ∧
              m.EnvironmentPatch.FromFieldPath = p.FromFieldPath ∧
              m.EnvironmentPatch.ToFieldPath = p.ToFieldPath) :=
  (convertPnTToPipeline_environment_split exampleEnvironment "fn" (Time.mk 7) (by decide)).2
    exampleEnvironmentReturned (by decide)

/-- C12: patch type defaulting is uniform. `setMissingPatchFields` and
`setMissingEnvironmentPatchFields` set the `Type` to FromCompositeFieldPath when the input `Type` is
empty and keep a non-empty `Type`; the returned patch has one processed transform per input
transform, in the same order. Each call returns exactly when no transform of the patch names an
absent sub-object. -/
theorem setMissingPatchFields_type_default (p : LegacyPatch) (ep : LegacyEnvironmentPatch) :
    ((setMissingPatchFields p).isSome = p.Transforms.all Transform.safe ∧
      ∀ r, setMissingPatchFields p = some r →
        (p.Type_ = "" → r.Type_ = PatchTypeFromCompositeFieldPath) ∧
        (p.Type_ ≠ "" → r.Type_ = p.Type_) ∧
        r.Transforms.length = p.Transforms.length ∧
        ∀ (i : Nat) (tt : Transform), p.Transforms[i]? = some tt →
          ∃ tt1, r.Transforms[i]? = some tt1 ∧ setTransformTypeRequiredFields tt = some tt1) ∧
    ((setMissingEnvironmentPatchFields ep).isSome = ep.Transforms.all Transform.safe ∧
      ∀ r, setMissingEnvironmentPatchFields ep = some r →
        (ep.Type_ = "" → r.Type_ = PatchTypeFromCompositeFieldPath) ∧
        (ep.Type_ ≠ "" → r.Type_ = ep.Type_) ∧
        r.Transforms.length = ep.Transforms.length ∧
        ∀ (i : Nat) (tt : Transform), ep.Transforms[i]? = some tt →
          ∃ tt1, r.Transforms[i]? = some tt1 ∧ setTransformTypeRequiredFields tt = some tt1) := by
  refine ⟨⟨setMissingPatchFields_isSome p, ?_⟩, ⟨setMissingEnvironmentPatchFields_isSome ep, ?_⟩⟩
  · intro r hr
    obtain ⟨hty, _, _, _, _, _, hts⟩ := setMissingPatchFields_spec p r hr
    obtain ⟨hlen, hpt⟩ := mapOpt_eq_some_pointwise _ _ _ hts
    refine ⟨?_, ?_, hlen, hpt⟩
    · intro h0
      rw [hty, if_pos h0]
    · intro h0
      rw [hty, if_neg h0]
  · intro r hr
    obtain ⟨hty, _, _, _, _, hts⟩ := setMissingEnvironmentPatchFields_spec ep r hr
    obtain ⟨hlen, hpt⟩ := mapOpt_eq_some_pointwise _ _ _ hts
    refine ⟨?_, ?_, hlen, hpt⟩
    · intro h0
      rw [hty, if_pos h0]
    · intro h0
      rw [hty, if_neg h0]

/-- Witness of C12 at `examplePatch`, whose `Type` is empty. -/
theorem setMissingPatchFields_type_default_witness :
    (examplePatch.Type_ = "" →
      ({ examplePatch with
          Type_ := PatchTypeFromCompositeFieldPath
          Transforms :=
            [{ Type_ := "math", Math := some (MathTransform.mk "Multiply" (some 2) none none),
               Map := none, Match := none, String_ := none, Convert := none }] } :
        LegacyPatch).Type_ = PatchTypeFromCompositeFieldPath) ∧
    (examplePatch.Type_ ≠ "" →
      ({ examplePatch with
          Type_ := PatchTypeFromCompositeFieldPath
          Transforms :=
            [{ Type_ := "math", Math := some (MathTransform.mk "Multiply" (some 2) none none),
               Map := none, Match := none, String_ := none, Convert := none }] } :
        LegacyPatch).Type_ = examplePatch.Type_) ∧
    ({ examplePatch with
        Type_ := PatchTypeFromCompositeFieldPath
        Transforms :=
          [{ Type_ := "math", Math := some (MathTransform.mk "Multiply" (some 2) none none),
             Map := none, Match := none, String_ := none, Convert := none }] } :
      LegacyPatch).Transforms.length = examplePatch.Transforms.length ∧
    ∀ (i : Nat) (tt : Transform), examplePatch.Transforms[i]? = some tt →
      ∃ tt1,
        ({ examplePatch with
            Type_ := PatchTypeFromCompositeFieldPath
            Transforms :=
              [{ Type_ := "math", Math := some (MathTransform.mk "Multiply" (some 2) none none),
                 Map := none, Match := none, String_ := none, Convert := none }] } :
          LegacyPatch).Transforms[i]? = some tt1 ∧
        setTransformTypeRequiredFields tt = some tt1 :=
  (setMissingPatchFields_type_default examplePatch
    { Type_ := "", FromFieldPath := none, Combine := none, ToFieldPath := none, Transforms := [],
      Policy := none }).1.2 _ (by decide)

/-! ## Transform discriminants -/

/-- The `Type` of a returned transform is the one `inferTransformType` gives. -/
theorem setTransformTypeRequiredFields_type_eq (tt r : Transform)
    (h : setTransformTypeRequiredFields tt = some r) :
    r.Type_ = (inferTransformType tt).Type_ := by
  unfold setTransformTypeRequiredFields at h
  cases h1 : setMathSubType (inferTransformType tt) with
  | none => simp [h1] at h
  | some r1 =>
    simp [h1] at h
    rw [(setStringSubType_frame _ r h).1, (setMathSubType_frame _ r1 h1).1]

/-- C13: top-level discriminant inference. A transform whose `Type` is empty is always returned:
with `Type` String when the `String` sub-object is populated, otherwise with `Type` Math when the
`Math` sub-object is populated, and otherwise unchanged, its `Type` still empty. A transform whose
`Type` is not empty keeps it whenever it is returned, which is exactly when it names no absent
sub-object. -/
theorem setTransformTypeRequiredFields_type (tt : Transform) :
    (tt.Type_ = "" →
      ∃ r, setTransformTypeRequiredFields tt = some r ∧
        (tt.String_ ≠ none → r.Type_ = TransformTypeString) ∧
        (tt.String_ = none → tt.Math ≠ none → r.Type_ = TransformTypeMath) ∧
        (tt.String_ = none → tt.Math = none → r = tt)) ∧
    (tt.Type_ ≠ "" →
      (setTransformTypeRequiredFields tt).isSome = tt.safe ∧
      ∀ r, setTransformTypeRequiredFields tt = some r → r.Type_ = tt.Type_) := by
  constructor
  · intro h0
    have hsafe : tt.safe = true := by
      simp [Transform.safe, h0, TransformTypeMath, TransformTypeString]
    have hsome := setTransformTypeRequiredFields_isSome tt
    rw [hsafe] at hsome
    obtain ⟨r, hr⟩ := Option.isSome_iff_exists.mp hsome
    have hty := setTransformTypeRequiredFields_type_eq tt r hr
    rw [inferTransformType_type, if_pos h0] at hty
    refine ⟨r, hr, ?_, ?_, ?_⟩
    · intro hs
      rw [hty, if_pos hs]
    · intro hs hm
      rw [hty, if_neg (by simpa using hs), if_pos hm]
    · intro hs hm
      have hinf : inferTransformType tt = tt := by
        unfold inferTransformType
        simp [h0, hs, hm]
      have h1 : setMathSubType tt = some tt := by
        unfold setMathSubType
        simp [h0, TransformTypeMath]
      have h2 : setStringSubType tt = some tt := by
        unfold setStringSubType
        simp [h0, TransformTypeString]
      have : setTransformTypeRequiredFields tt = some tt := by
        unfold setTransformTypeRequiredFields
        rw [hinf, h1]
        exact h2
      rw [this] at hr
      exact (Option.some.inj hr).symm
  · intro h0
    refine ⟨setTransformTypeRequiredFields_isSome tt, ?_⟩
    intro r hr
    rw [setTransformTypeRequiredFields_type_eq tt r hr, inferTransformType_type, if_neg h0]

/-- Witness of C13 at the transform of `examplePatch`, which has an empty `Type` and a `Math`
sub-object. -/
theorem setTransformTypeRequiredFields_type_witness :
    ∃ r, setTransformTypeRequiredFields
          { Type_ := "", Math := some (MathTransform.mk "" (some 2) none none), Map := none,
            Match := none, String_ := none, Convert := none } = some r ∧
      ((none : Option StringTransform) ≠ none → r.Type_ = TransformTypeString) ∧
      ((none : Option StringTransform) = none →
        some (MathTransform.mk "" (some 2) none none) ≠ none → r.Type_ = TransformTypeMath) ∧
      ((none : Option StringTransform) = none →
        some (MathTransform.mk "" (some 2) none none) = none →
        r = { Type_ := "", Math := some (MathTransform.mk "" (some 2) none none), Map := none,
              Match := none, String_ := none, Convert := none }) :=
  (setTransformTypeRequiredFields_type
    { Type_ := "", Math := some (MathTransform.mk "" (some 2) none none), Map := none,
      Match := none, String_ := none, Convert := none }).1 rfl

/-- The math step on a transform of `Type` Math with a `Math` sub-object. -/
theorem setMathSubType_math (tt : Transform) (m : MathTransform)
    (hty : tt.Type_ = TransformTypeMath) (hm : tt.Math = some m) :
    ∃ r, setMathSubType tt = some r ∧
      r.Math = some
        (if m.Type_ = "" then
          { m with
            Type_ :=
              if m.ClampMin ≠ none then MathTransformTypeClampMin
              else if m.ClampMax ≠ none then MathTransformTypeClampMax
              else if m.Multiply ≠ none then MathTransformTypeMultiply
              else "" }
        else m) := by
  unfold setMathSubType
  by_cases hmt : m.Type_ = ""
  · simp only [hty, if_true, hm, hmt, getMathTransformType]
    simp only [ne_eq, not_true_eq_false, if_false]
    split_ifs <;> exact ⟨_, rfl, rfl⟩
  · simp only [hty, if_true, hm, hmt, if_false]
    exact ⟨_, rfl, hm⟩

/-- The string step on a transform of `Type` String with a `String` sub-object. -/
theorem setStringSubType_string (tt : Transform) (st : StringTransform)
    (hty : tt.Type_ = TransformTypeString) (hs : tt.String_ = some st) :
    ∃ r, setStringSubType tt = some r ∧
      r.String_ = some
        (if st.Type_ = "" then
          { st with
            Type_ :=
              if st.Format ≠ none then StringTransformTypeFormat
              else if st.Convert ≠ none then StringTransformTypeConvert
              else if st.Regexp ≠ none then StringTransformTypeRegexp
              else "" }
        else st) := by
  unfold setStringSubType
  by_cases hst : st.Type_ = ""
  · simp only [hty, if_true, hs, hst, getStringTransformType]
    simp only [ne_eq, not_true_eq_false, if_false]
    split_ifs <;> exact ⟨_, rfl, rfl⟩
  · simp only [hty, if_true, hs, hst, if_false]
    exact ⟨_, rfl, hs⟩

/-- The steps of `setTransformTypeRequiredFields` when it returns. -/
theorem setTransformTypeRequiredFields_steps (tt r : Transform)
    (h : setTransformTypeRequiredFields tt = some r) :
    ∃ r1, setMathSubType (inferTransformType tt) = some r1 ∧ setStringSubType r1 = some r := by
  unfold setTransformTypeRequiredFields at h
  cases h1 : setMathSubType (inferTransformType tt) with
  | none => simp [h1] at h
  | some r1 =>
    simp [h1] at h
    exact ⟨r1, rfl, h⟩

/-- The `Math` sub-object of a returned transform. -/
theorem setTransformTypeRequiredFields_math (tt r : Transform) (m : MathTransform)
    (h : setTransformTypeRequiredFields tt = some r) (hm : tt.Math = some m) :
    r.Math = some
      (if r.Type_ = TransformTypeMath ∧ m.Type_ = "" then
        { m with
          Type_ :=
            if m.ClampMin ≠ none then MathTransformTypeClampMin
            else if m.ClampMax ≠ none then MathTransformTypeClampMax
            else if m.Multiply ≠ none then MathTransformTypeMultiply
            else "" }
      else m) := by
  obtain ⟨r1, h1, h2⟩ := setTransformTypeRequiredFields_steps tt r h
  have hf := inferTransformType_frame tt
  have hty : r.Type_ = (inferTransformType tt).Type_ :=
    setTransformTypeRequiredFields_type_eq tt r h
  rw [(setStringSubType_frame r1 r h2).2.1]
  by_cases hmath : (inferTransformType tt).Type_ = TransformTypeMath
  · obtain ⟨r2, hr2, hr2m⟩ := setMathSubType_math _ m hmath (by rw [hf.1, hm])
    rw [h1] at hr2
    cases hr2
    rw [hr2m, hty]
    by_cases hmt : m.Type_ = "" <;> simp [hmath, hmt]
  · have : setMathSubType (inferTransformType tt) = some (inferTransformType tt) := by
      unfold setMathSubType
      simp [hmath]
    rw [this] at h1
    cases h1
    rw [hf.1, hm, hty]
    simp [hmath]

/-- The `String` sub-object of a returned transform. -/
theorem setTransformTypeRequiredFields_string (tt r : Transform) (st : StringTransform)
    (h : setTransformTypeRequiredFields tt = some r) (hs : tt.String_ = some st) :
    r.String_ = some
      (if r.Type_ = TransformTypeString ∧ st.Type_ = "" then
        { st with
          Type_ :=
            if st.Format ≠ none then StringTransformTypeFormat
            else if st.Convert ≠ none then StringTransformTypeConvert
            else if st.Regexp ≠ none then StringTransformTypeRegexp
            else "" }
      else st) := by
  obtain ⟨r1, h1, h2⟩ := setTransformTypeRequiredFields_steps tt r h
  have hf := inferTransformType_frame tt
  have hty : r.Type_ = (inferTransformType tt).Type_ :=
    setTransformTypeRequiredFields_type_eq tt r h
  obtain ⟨hr1ty, hr1s, _⟩ := setMathSubType_frame _ r1 h1
  by_cases hstr : (inferTransformType tt).Type_ = TransformTypeString
  · obtain ⟨r2, hr2, hr2s⟩ :=
      setStringSubType_string r1 st (by rw [hr1ty, hstr]) (by rw [hr1s, hf.2.1, hs])
    rw [h2] at hr2
    cases hr2
    rw [hr2s, hty]
    by_cases hst : st.Type_ = "" <;> simp [hstr, hst]
  · have : setStringSubType r1 = some r1 := by
      unfold setStringSubType
      simp [hr1ty, hstr]
    rw [this] at h2
    cases h2
    rw [hr1s, hf.2.1, hs, hty]
    simp [hstr]

/-- C14: sub-variant inference follows a fixed priority. For a returned transform that resolves to
Math, with a `Math` sub-object whose own `Type` is empty, the resulting `Math.Type` is ClampMin if
`ClampMin` is set, else ClampMax if `ClampMax` is set, else Multiply if `Multiply` is set, else
empty; for one that resolves to String, with a `String` sub-object whose own `Type` is empty, the
resulting `String.Type` is Format, else Convert, else Regexp, else empty, by the field that is set.
A non-empty sub-type is never changed. The transform is returned exactly when it names no absent
sub-object. -/
theorem setTransformTypeRequiredFields_sub_type (tt : Transform) :
    (setTransformTypeRequiredFields tt).isSome = tt.safe ∧
    ∀ r, setTransformTypeRequiredFields tt = some r →
      (∀ m, tt.Math = some m → r.Type_ = TransformTypeMath → m.Type_ = "" →
        r.Math = some
          { m with
            Type_ :=
              if m.ClampMin ≠ none then MathTransformTypeClampMin
              else if m.ClampMax ≠ none then MathTransformTypeClampMax
              else if m.Multiply ≠ none then MathTransformTypeMultiply
              else "" }) ∧
      (∀ st, tt.String_ = some st → r.Type_ = TransformTypeString → st.Type_ = "" →
        r.String_ = some
          { st with
            Type_ :=
              if st.Format ≠ none then StringTransformTypeFormat
              else if st.Convert ≠ none then StringTransformTypeConvert
              else if st.Regexp ≠ none then StringTransformTypeRegexp
              else "" }) ∧
      (∀ m, tt.Math = some m → m.Type_ ≠ "" → r.Math = some m) ∧
      (∀ st, tt.String_ = some st → st.Type_ ≠ "" → r.String_ = some st) := by
  refine ⟨setTransformTypeRequiredFields_isSome tt, ?_⟩
  intro r hr
  refine ⟨?_, ?_, ?_, ?_⟩
  · intro m hm hty hmt
    rw [setTransformTypeRequiredFields_math tt r m hr hm, if_pos ⟨hty, hmt⟩]
  · intro st hs hty hst
    rw [setTransformTypeRequiredFields_string tt r st hr hs, if_pos ⟨hty, hst⟩]
  · intro m hm hmt
    rw [setTransformTypeRequiredFields_math tt r m hr hm, if_neg (fun hc => hmt hc.2)]
  · intro st hs hst
    rw [setTransformTypeRequiredFields_string tt r st hr hs, if_neg (fun hc => hst hc.2)]

/-- Witness of C14 at `exampleClamp`: `ClampMin` wins over `Multiply`. -/
theorem setTransformTypeRequiredFields_sub_type_witness :
    (∀ m, exampleClamp.Math = some m → exampleClampReturned.Type_ = TransformTypeMath →
      m.Type_ = "" →
      exampleClampReturned.Math = some
        { m with
          Type_ :=
            if m.ClampMin ≠ none then MathTransformTypeClampMin
            else if m.ClampMax ≠ none then MathTransformTypeClampMax
            else if m.Multiply ≠ none then MathTransformTypeMultiply
            else "" }) ∧
    (∀ st, exampleClamp.String_ = some st → exampleClampReturned.Type_ = TransformTypeString →
      st.Type_ = "" →
      exampleClampReturned.String_ = some
        { st with
          Type_ :=
            if st.Format ≠ none then StringTransformTypeFormat
            else if st.Convert ≠ none then StringTransformTypeConvert
            else if st.Regexp ≠ none then StringTransformTypeRegexp
            else "" }) ∧
    (∀ m, exampleClamp.Math = some m → m.Type_ ≠ "" → exampleClampReturned.Math = some m) ∧
    (∀ st, exampleClamp.String_ = some st → st.Type_ ≠ "" →
      exampleClampReturned.String_ = some st) :=
  (setTransformTypeRequiredFields_sub_type exampleClamp).2 exampleClampReturned (by decide)

/-! ## Connection details -/

/-- C15: type inference priority. For a connection detail whose `Type` is absent, the returned
`Type` is FromValue if `Value` is populated, else FromFieldPath if `FromFieldPath` is populated,
else FromConnectionSecretKey if `FromConnectionSecretKey` is populated; the three source fields are
returned unchanged. -/
theorem setMissingConnectionDetailFields_type (sk : ConnectionDetail) (_h : sk.Type_ = none) :
    (sk.Value ≠ none →
      (setMissingConnectionDetailFields sk).Type_ = some ConnectionDetailTypeFromValue) ∧
    (sk.Value = none → sk.FromFieldPath ≠ none →
      (setMissingConnectionDetailFields sk).Type_ = some ConnectionDetailTypeFromFieldPath) ∧
    (sk.Value = none → sk.FromFieldPath = none → sk.FromConnectionSecretKey ≠ none →
      (setMissingConnectionDetailFields sk).Type_ =
        some ConnectionDetailTypeFromConnectionSecretKey) ∧
    (setMissingConnectionDetailFields sk).Value = sk.Value ∧
    (setMissingConnectionDetailFields sk).FromFieldPath = sk.FromFieldPath ∧
    (setMissingConnectionDetailFields sk).FromConnectionSecretKey = sk.FromConnectionSecretKey := by
  obtain ⟨name, ty, key, path, value⟩ := sk
  cases name <;> cases key <;> cases path <;> cases value <;>
    simp [setMissingConnectionDetailFields, ConnectionDetailTypeFromValue,
      ConnectionDetailTypeFromFieldPath, ConnectionDetailTypeFromConnectionSecretKey]

/-- Witness of C15 at `exampleSecretKeyDetail`. -/
theorem setMissingConnectionDetailFields_type_witness :
    (exampleSecretKeyDetail.Value ≠ none →
      (setMissingConnectionDetailFields exampleSecretKeyDetail).Type_ =
        some ConnectionDetailTypeFromValue) ∧
    (exampleSecretKeyDetail.Value = none → exampleSecretKeyDetail.FromFieldPath ≠ none →
      (setMissingConnectionDetailFields exampleSecretKeyDetail).Type_ =
        some ConnectionDetailTypeFromFieldPath) ∧
    (exampleSecretKeyDetail.Value = none → exampleSecretKeyDetail.FromFieldPath = none →
      exampleSecretKeyDetail.FromConnectionSecretKey ≠ none →
      (setMissingConnectionDetailFields exampleSecretKeyDetail).Type_ =
        some ConnectionDetailTypeFromConnectionSecretKey) ∧
    (setMissingConnectionDetailFields exampleSecretKeyDetail).Value =
      exampleSecretKeyDetail.Value ∧
    (setMissingConnectionDetailFields exampleSecretKeyDetail).FromFieldPath =
      exampleSecretKeyDetail.FromFieldPath ∧
    (setMissingConnectionDetailFields exampleSecretKeyDetail).FromConnectionSecretKey =
      exampleSecretKeyDetail.FromConnectionSecretKey :=
  setMissingConnectionDetailFields_type exampleSecretKeyDetail rfl

/-- C16, refuted at `exampleEmptyDetail`: a connection detail with no `Type` and none of `Value`,
`FromFieldPath`, `FromConnectionSecretKey` populated is returned with a nil `Type`. -/
theorem setMissingConnectionDetailFields_type_nil :
    (setMissingConnectionDetailFields exampleEmptyDetail).Type_ = none := by
  decide

/-- C16 as amended: a connection detail with at least one of `Value`, `FromFieldPath`,
`FromConnectionSecretKey` populated is returned with a `Type` that is set. -/
theorem setMissingConnectionDetailFields_type_set (sk : ConnectionDetail)
    (h : sk.Value ≠ none ∨ sk.FromFieldPath ≠ none ∨ sk.FromConnectionSecretKey ≠ none) :
    (setMissingConnectionDetailFields sk).Type_ ≠ none := by
  obtain ⟨name, ty, key, path, value⟩ := sk
  cases name <;> cases key <;> cases path <;> cases value <;>
    simp_all [setMissingConnectionDetailFields, ConnectionDetailTypeFromValue,
      ConnectionDetailTypeFromFieldPath, ConnectionDetailTypeFromConnectionSecretKey]

/-- Witness of C16 as amended at `exampleSecretKeyDetail`. -/
theorem setMissingConnectionDetailFields_type_set_witness :
    (setMissingConnectionDetailFields exampleSecretKeyDetail).Type_ ≠ none :=
  setMissingConnectionDetailFields_type_set exampleSecretKeyDetail (by decide)

/-- C17, at the failing input: `exampleDetail` carries the explicit `Type` FromFieldPath and has
`Value` populated; the returned `Type` is FromValue, not the explicit one. -/
theorem setMissingConnectionDetailFields_drops_explicit_type :
    exampleDetail.Type_ = some ConnectionDetailTypeFromFieldPath ∧
    (setMissingConnectionDetailFields exampleDetail).Type_ = some ConnectionDetailTypeFromValue ∧
    (setMissingConnectionDetailFields exampleDetail).Type_ ≠ exampleDetail.Type_ := by
  decide

/-- The `Type` of the detail returned by `setMissingConnectionDetailFields` never depends on the
`Type` of its argument. -/
theorem setMissingConnectionDetailFields_ignores_type (sk : ConnectionDetail)
    (ty : Option ConnectionDetailType) :
    setMissingConnectionDetailFields { sk with Type_ := ty } =
      setMissingConnectionDetailFields sk := by
  rfl

/-- C18: name defaulting. An explicit `Name` is returned unchanged; when `Name` is absent and the
returned `Type` is FromConnectionSecretKey the returned `Name` is the `FromConnectionSecretKey`
field; when `Name` is absent and the returned `Type` is FromValue, FromFieldPath or nil the returned
`Name` is absent. -/
theorem setMissingConnectionDetailFields_name (sk : ConnectionDetail) :
    (sk.Name ≠ none → (setMissingConnectionDetailFields sk).Name = sk.Name) ∧
    (sk.Name = none →
      (setMissingConnectionDetailFields sk).Type_ =
        some ConnectionDetailTypeFromConnectionSecretKey →
      (setMissingConnectionDetailFields sk).Name = sk.FromConnectionSecretKey) ∧
    (sk.Name = none →
      ((setMissingConnectionDetailFields sk).Type_ = some ConnectionDetailTypeFromValue ∨
        (setMissingConnectionDetailFields sk).Type_ = some ConnectionDetailTypeFromFieldPath ∨
        (setMissingConnectionDetailFields sk).Type_ = none) →
      (setMissingConnectionDetailFields sk).Name = none) := by
  obtain ⟨name, ty, key, path, value⟩ := sk
  cases name <;> cases key <;> cases path <;> cases value <;>
    simp [setMissingConnectionDetailFields, ConnectionDetailTypeFromValue,
      ConnectionDetailTypeFromFieldPath, ConnectionDetailTypeFromConnectionSecretKey]

/-- Witness of C18 at `exampleSecretKeyDetail`: the absent name becomes the secret key. -/
theorem setMissingConnectionDetailFields_name_witness :
    (setMissingConnectionDetailFields exampleSecretKeyDetail).Name =
      exampleSecretKeyDetail.FromConnectionSecretKey :=
  (setMissingConnectionDetailFields_name exampleSecretKeyDetail).2.1 rfl (by decide)

/-! ## The fallback composer -/

/-- C19: selection. When the trigger returns (false, nil), `Compose` invokes the preferred composer
only and returns its result and error verbatim; when it returns (true, nil), `Compose` invokes the
fallback composer only and returns its result and error verbatim. -/
theorem FallBackComposer_Compose_selects {X Q : Type} (preferred fallback : Composer X Q)
    (fn : TriggerFn X Q) (errTriggerFn : String) (xr : X) (req : Q) :
    (fn xr req = (false, none) →
      (NewFallBackComposer preferred fallback fn).Compose errTriggerFn xr req =
        { invoked := [Invoked.preferred], res := (preferred xr req).1,
          err := (preferred xr req).2 }) ∧
    (fn xr req = (true, none) →
      (NewFallBackComposer preferred fallback fn).Compose errTriggerFn xr req =
        { invoked := [Invoked.fallback], res := (fallback xr req).1,
          err := (fallback xr req).2 }) := by
  constructor <;> intro h <;> simp [FallBackComposer.Compose, NewFallBackComposer, h]

/-- Witness of C19 with the composers and the trigger of the test case "SimpleFallback". -/
theorem FallBackComposer_Compose_selects_witness :
    (NewFallBackComposer (fun (_ : Unit) (_ : Unit) => (CompositionResult.empty, none))
        (fun _ _ => (exampleResult, none)) (fun _ _ => (true, none))).Compose
        "trigger" () () =
      { invoked := [Invoked.fallback], res := exampleResult, err := none } :=
  (FallBackComposer_Compose_selects (fun (_ : Unit) (_ : Unit) => (CompositionResult.empty, none))
    (fun _ _ => (exampleResult, none)) (fun _ _ => (true, none)) "trigger" () ()).2 rfl

/-- C20: trigger failure. When the trigger returns an error, whatever boolean comes with it,
`Compose` invokes neither composer and returns the empty result and the trigger's error wrapped
with the trigger-evaluation message. -/
theorem FallBackComposer_Compose_trigger_error {X Q : Type} (preferred fallback : Composer X Q)
    (fn : TriggerFn X Q) (errTriggerFn : String) (xr : X) (req : Q) (b : Bool) (e : Err)
    (h : fn xr req = (b, some e)) :
    (NewFallBackComposer preferred fallback fn).Compose errTriggerFn xr req =
      { invoked := [], res := CompositionResult.empty, err := some (Err.wrap e errTriggerFn) } := by
  simp [FallBackComposer.Compose, NewFallBackComposer, h]

/-- Witness of C20 with the composers and the trigger of the test case "TriggerFnError". -/
theorem FallBackComposer_Compose_trigger_error_witness :
    (NewFallBackComposer (fun (_ : Unit) (_ : Unit) => (exampleResult, none))
        (fun _ _ => (exampleResult, none)) (fun _ _ => (true, some (Err.new "boom")))).Compose
        "trigger" () () =
      { invoked := [], res := CompositionResult.empty,
        err := some (Err.wrap (Err.new "boom") "trigger") } :=
  FallBackComposer_Compose_trigger_error (fun (_ : Unit) (_ : Unit) => (exampleResult, none))
    (fun _ _ => (exampleResult, none)) (fun _ _ => (true, some (Err.new "boom"))) "trigger" () ()
    true (Err.new "boom") rfl

/-! ## The legacy-shape trigger predicate -/

/-- The references fetched so far only prefix the outcome of `checkReferences`. -/
theorem checkReferences_fetched (get : ObjectReference → GetResult) (errGetComposed : String)
    (refs fetched : List ObjectReference) :
    checkReferences get errGetComposed refs fetched =
      { fetched := fetched ++ (checkReferences get errGetComposed refs []).fetched,
        fallback := (checkReferences get errGetComposed refs []).fallback,
        err := (checkReferences get errGetComposed refs []).err } := by
  induction refs generalizing fetched with
  | nil => simp [checkReferences]
  | cons ref rest ih =>
    cases hg : get ref with
    | notFound =>
      simp only [checkReferences, hg]
      rw [ih (fetched ++ [ref]), ih ([] ++ [ref])]
      simp
    | failed e => simp [checkReferences, hg]
    | found obj =>
      by_cases hl : obj.lacksResourceName = true
      · simp [checkReferences, hg, hl]
      · simp only [checkReferences, hg, hl]
        rw [ih (fetched ++ [ref]), ih ([] ++ [ref])]
        simp

/-- One step of `checkReferences` over a reference that does not decide. -/
theorem checkReferences_skip (get : ObjectReference → GetResult) (errGetComposed : String)
    (ref : ObjectReference) (rest : List ObjectReference)
    (h : get ref = GetResult.notFound ∨
      ∃ obj, get ref = GetResult.found obj ∧ obj.lacksResourceName = false) :
    checkReferences get errGetComposed (ref :: rest) [] =
      { fetched := ref :: (checkReferences get errGetComposed rest []).fetched,
        fallback := (checkReferences get errGetComposed rest []).fallback,
        err := (checkReferences get errGetComposed rest []).err } := by
  rcases h with h | ⟨obj, h, hl⟩
  · simp only [checkReferences, h]
    rw [checkReferences_fetched]
    simp
  · simp only [checkReferences, h, hl]
    rw [checkReferences_fetched]
    simp

/-- The decision of `checkReferences` when none of its fetches fails. -/
theorem checkReferences_decision (get : ObjectReference → GetResult) (errGetComposed : String)
    (refs : List ObjectReference)
    (hget : ∀ ref ∈ (checkReferences get errGetComposed refs []).fetched,
      ∀ err, get ref ≠ GetResult.failed err) :
    (checkReferences get errGetComposed refs []).err = none ∧
      ((checkReferences get errGetComposed refs []).fallback = true ↔
        ∃ ref ∈ refs, ∃ obj, get ref = GetResult.found obj ∧ obj.lacksResourceName = true) := by
  induction refs with
  | nil => simp [checkReferences]
  | cons ref rest ih =>
    cases hg : get ref with
    | notFound =>
      rw [checkReferences_skip get errGetComposed ref rest (Or.inl hg)] at hget ⊢
      obtain ⟨herr, hfb⟩ := ih fun r hr => hget r (List.mem_cons_of_mem _ hr)
      refine ⟨herr, ?_⟩
      simp only [hfb, List.mem_cons, exists_eq_or_imp, hg]
      simp
    | failed e =>
      exact absurd hg (hget ref (by simp [checkReferences, hg]) e)
    | found obj =>
      by_cases hl : obj.lacksResourceName = true
      · refine ⟨by simp [checkReferences, hg, hl], ?_⟩
        simp only [checkReferences, hg, hl, if_true, true_iff]
        exact ⟨ref, by simp, obj, hg, hl⟩
      · have hl2 : obj.lacksResourceName = false := by simpa using hl
        rw [checkReferences_skip get errGetComposed ref rest (Or.inr ⟨obj, hg, hl2⟩)] at hget ⊢
        obtain ⟨herr, hfb⟩ := ih fun r hr => hget r (List.mem_cons_of_mem _ hr)
        refine ⟨herr, ?_⟩
        simp only [hfb, List.mem_cons, exists_eq_or_imp, hg]
        simp [hl2]

/-- The predicate never returns a true decision together with an error. -/
theorem checkReferences_not_true_and_error (get : ObjectReference → GetResult)
    (errGetComposed : String) (refs fetched : List ObjectReference) :
    ¬ ((checkReferences get errGetComposed refs fetched).fallback = true ∧
      (checkReferences get errGetComposed refs fetched).err ≠ none) := by
  induction refs generalizing fetched with
  | nil => simp [checkReferences]
  | cons ref rest ih =>
    cases hg : get ref with
    | notFound =>
      simp only [checkReferences, hg]
      exact ih _
    | failed e => simp [checkReferences, hg]
    | found obj =>
      by_cases hl : obj.lacksResourceName = true
      · simp [checkReferences, hg, hl]
      · simp only [checkReferences, hg, hl]
        exact ih _

/-- The outcome of `checkReferences` at the first fetch that fails. -/
theorem checkReferences_first_failure (get : ObjectReference → GetResult)
    (errGetComposed : String) (pre : List ObjectReference) (ref : ObjectReference)
    (rest : List ObjectReference) (e : Err)
    (hpre : ∀ r ∈ pre, get r = GetResult.notFound ∨
      ∃ obj, get r = GetResult.found obj ∧ obj.lacksResourceName = false)
    (href : get ref = GetResult.failed e) :
    checkReferences get errGetComposed (pre ++ ref :: rest) [] =
      { fetched := pre ++ [ref], fallback := false,
        err := some (Err.wrap e errGetComposed) } := by
  induction pre with
  | nil => simp [checkReferences, href]
  | cons a pre ih =>
    rw [List.cons_append, checkReferences_skip get errGetComposed a _ (hpre a (by simp)),
      ih fun r hr => hpre r (List.mem_cons_of_mem _ hr)]
    simp

/-- C21: the decision of the trigger predicate. For a request whose revision has no anonymous
template, when none of the fetches the predicate makes fails with an error other than not-found,
the predicate returns no error, and it returns true exactly when some referenced object that is
found lacks the composition-resource-name annotation; with no reference at all it returns
(false, nil). -/
theorem FallBackForAnonymousTemplates_decision (get : ObjectReference → GetResult)
    (errGetComposed : String) (xr : Composite) (req : CompositionRequest)
    (hanon : ∀ t ∈ req.Revision.Resources, ¬ (t.Name = none ∨ t.Name = some ""))
    (hget : ∀ ref ∈ (FallBackForAnonymousTemplates get errGetComposed xr req).fetched,
      ∀ err, get ref ≠ GetResult.failed err) :
    (FallBackForAnonymousTemplates get errGetComposed xr req).err = none ∧
    ((FallBackForAnonymousTemplates get errGetComposed xr req).fallback = true ↔
      ∃ ref ∈ xr.ResourceRefs, ∃ obj,
        get ref = GetResult.found obj ∧ obj.lacksResourceName = true) ∧
    (xr.ResourceRefs = [] →
      (FallBackForAnonymousTemplates get errGetComposed xr req).fallback = false) := by
  have hany : req.Revision.Resources.any isAnonymous = false := by
    rw [List.any_eq_false]
    intro t ht
    simpa [isAnonymous] using hanon t ht
  have hdef : FallBackForAnonymousTemplates get errGetComposed xr req =
      checkReferences get errGetComposed xr.ResourceRefs [] := by
    simp [FallBackForAnonymousTemplates, hany]
  rw [hdef] at hget ⊢
  obtain ⟨herr, hfb⟩ := checkReferences_decision get errGetComposed xr.ResourceRefs hget
  refine ⟨herr, hfb, ?_⟩
  intro hnil
  rw [hnil]
  rfl

/-- Witness of C21 at the test case with no resource template and no reference, the store finding
nothing. -/
theorem FallBackForAnonymousTemplates_decision_witness :
    (FallBackForAnonymousTemplates exampleNotFoundStore "get" (Composite.mk [])
        (CompositionRequest.mk (CompositionRevision.mk []))).err = none ∧
    ((FallBackForAnonymousTemplates exampleNotFoundStore "get" (Composite.mk [])
        (CompositionRequest.mk (CompositionRevision.mk []))).fallback = true ↔
      ∃ ref ∈ (Composite.mk []).ResourceRefs, ∃ obj,
        exampleNotFoundStore ref = GetResult.found obj ∧ obj.lacksResourceName = true) ∧
    ((Composite.mk []).ResourceRefs = [] →
      (FallBackForAnonymousTemplates exampleNotFoundStore "get" (Composite.mk [])
        (CompositionRequest.mk (CompositionRevision.mk []))).fallback = false) :=
  FallBackForAnonymousTemplates_decision exampleNotFoundStore "get" (Composite.mk [])
    (CompositionRequest.mk (CompositionRevision.mk [])) (by simp)
    (by simp [FallBackForAnonymousTemplates, checkReferences])

/-- C22: anonymous templates are checked first. When the revision holds a template whose name is
unset or empty, the predicate returns (true, nil) and fetches nothing, whatever the references of
the composite resource and whatever the store answers. -/
theorem FallBackForAnonymousTemplates_anonymous_first (get : ObjectReference → GetResult)
    (errGetComposed : String) (xr : Composite) (req : CompositionRequest)
    (h : ∃ t ∈ req.Revision.Resources, t.Name = none ∨ t.Name = some "") :
    FallBackForAnonymousTemplates get errGetComposed xr req =
      { fetched := [], fallback := true, err := none } := by
  have hany : req.Revision.Resources.any isAnonymous = true := by
    rw [List.any_eq_true]
    obtain ⟨t, ht, hname⟩ := h
    exact ⟨t, ht, by simpa [isAnonymous] using hname⟩
  simp [FallBackForAnonymousTemplates, hany]

/-- Witness of C22 at the test case "HasAnonymousTemplate", with a reference whose fetch would
fail. -/
theorem FallBackForAnonymousTemplates_anonymous_first_witness :
    FallBackForAnonymousTemplates (fun _ => GetResult.failed (Err.new "boom")) "get"
        (Composite.mk [ObjectReference.mk "cool-resource" ""])
        (CompositionRequest.mk (CompositionRevision.mk [exampleNamed none])) =
      { fetched := [], fallback := true, err := none } :=
  FallBackForAnonymousTemplates_anonymous_first (fun _ => GetResult.failed (Err.new "boom")) "get"
    (Composite.mk [ObjectReference.mk "cool-resource" ""])
    (CompositionRequest.mk (CompositionRevision.mk [exampleNamed none]))
    ⟨exampleNamed none, by simp, Or.inl rfl⟩

/-- C23: fetch errors of the trigger predicate, for a request with no anonymous template. A
not-found error on the first reference is ignored: the decision and the error are those of the
remaining references. The first fetch that fails with another error, every reference before it
being not found or found with its annotation, makes the predicate return false and that error
wrapped with the get-composed-resource message, after fetching nothing further. The predicate never
returns true together with an error. -/
theorem FallBackForAnonymousTemplates_fetch_errors (get : ObjectReference → GetResult)
    (errGetComposed : String) (req : CompositionRequest) :
    (∀ (ref : ObjectReference) (rest : List ObjectReference),
      (∀ t ∈ req.Revision.Resources, ¬ (t.Name = none ∨ t.Name = some "")) →
      get ref = GetResult.notFound →
      (FallBackForAnonymousTemplates get errGetComposed (Composite.mk (ref :: rest)) req).fallback =
          (FallBackForAnonymousTemplates get errGetComposed (Composite.mk rest) req).fallback ∧
        (FallBackForAnonymousTemplates get errGetComposed (Composite.mk (ref :: rest)) req).err =
          (FallBackForAnonymousTemplates get errGetComposed (Composite.mk rest) req).err) ∧
    (∀ (pre : List ObjectReference) (ref : ObjectReference) (rest : List ObjectReference)
        (e : Err),
      (∀ t ∈ req.Revision.Resources, ¬ (t.Name = none ∨ t.Name = some "")) →
      (∀ r ∈ pre, get r = GetResult.notFound ∨
        ∃ obj, get r = GetResult.found obj ∧ obj.lacksResourceName = false) →
      get ref = GetResult.failed e →
      FallBackForAnonymousTemplates get errGetComposed (Composite.mk (pre ++ ref :: rest)) req =
        { fetched := pre ++ [ref], fallback := false,
          err := some (Err.wrap e errGetComposed) }) ∧
    (∀ xr : Composite,
      ¬ ((FallBackForAnonymousTemplates get errGetComposed xr req).fallback = true ∧
        (FallBackForAnonymousTemplates get errGetComposed xr req).err ≠ none)) := by
  have hdef : (∀ t ∈ req.Revision.Resources, ¬ (t.Name = none ∨ t.Name = some "")) →
      ∀ xr : Composite, FallBackForAnonymousTemplates get errGetComposed xr req =
        checkReferences get errGetComposed xr.ResourceRefs [] := by
    intro hanon xr
    have hany : req.Revision.Resources.any isAnonymous = false := by
      rw [List.any_eq_false]
      intro t ht
      simpa [isAnonymous] using hanon t ht
    simp [FallBackForAnonymousTemplates, hany]
  refine ⟨?_, ?_, ?_⟩
  · intro ref rest hanon hnf
    rw [hdef hanon, hdef hanon, checkReferences_skip get errGetComposed ref rest (Or.inl hnf)]
    exact ⟨rfl, rfl⟩
  · intro pre ref rest e hanon hpre href
    rw [hdef hanon]
    exact checkReferences_first_failure get errGetComposed pre ref rest e hpre href
  · intro xr
    unfold FallBackForAnonymousTemplates
    split_ifs
    · simp
    · exact checkReferences_not_true_and_error get errGetComposed xr.ResourceRefs []

/-- Witness of C23 at the test case "GetResourceError": one reference whose fetch fails. -/
theorem FallBackForAnonymousTemplates_fetch_errors_witness :
    FallBackForAnonymousTemplates (fun _ => GetResult.failed (Err.new "boom")) "get"
        (Composite.mk ([] ++ ObjectReference.mk "cool-resource" "" :: []))
        (CompositionRequest.mk (CompositionRevision.mk [])) =
      { fetched := [] ++ [ObjectReference.mk "cool-resource" ""], fallback := false,
        err := some (Err.wrap (Err.new "boom") "get") } :=
  (FallBackForAnonymousTemplates_fetch_errors (fun _ => GetResult.failed (Err.new "boom")) "get"
    (CompositionRequest.mk (CompositionRevision.mk []))).2.1 []
    (ObjectReference.mk "cool-resource" "") [] (Err.new "boom") (by simp) (by simp) rfl

/-- C24, refuted: with one reference whose fetch returns a not-found error and a revision whose
only template is named, the predicate returns (false, nil), not (true, nil). -/
theorem FallBackForAnonymousTemplates_not_found_no_fallback :
    FallBackForAnonymousTemplates exampleNotFoundStore "get"
        (Composite.mk [ObjectReference.mk "cool-resource" ""])
        (CompositionRequest.mk (CompositionRevision.mk [exampleNamed (some "bucket")])) =
      { fetched := [ObjectReference.mk "cool-resource" ""], fallback := false, err := none } ∧
    (FallBackForAnonymousTemplates exampleNotFoundStore "get"
        (Composite.mk [ObjectReference.mk "cool-resource" ""])
        (CompositionRequest.mk (CompositionRevision.mk [exampleNamed (some "bucket")]))).fallback ≠
      true := by
  decide

/-- C24 as amended: for a composite resource with exactly one reference whose fetch returns a
not-found error, and a revision with no anonymous template, the predicate returns (false, nil): it
does not fall back. -/
theorem FallBackForAnonymousTemplates_single_not_found (get : ObjectReference → GetResult)
    (errGetComposed : String) (ref : ObjectReference) (req : CompositionRequest)
    (hanon : ∀ t ∈ req.Revision.Resources, ¬ (t.Name = none ∨ t.Name = some ""))
    (hnf : get ref = GetResult.notFound) :
    FallBackForAnonymousTemplates get errGetComposed (Composite.mk [ref]) req =
      { fetched := [ref], fallback := false, err := none } := by
  have hany : req.Revision.Resources.any isAnonymous = false := by
    rw [List.any_eq_false]
    intro t ht
    simpa [isAnonymous] using hanon t ht
  simp [FallBackForAnonymousTemplates, hany, checkReferences, hnf]

/-- Witness of C24 as amended, with the store that finds nothing. -/
theorem FallBackForAnonymousTemplates_single_not_found_witness :
    FallBackForAnonymousTemplates exampleNotFoundStore "get"
        (Composite.mk [ObjectReference.mk "cool-resource" ""])
        (CompositionRequest.mk (CompositionRevision.mk [exampleNamed (some "bucket")])) =
      { fetched := [ObjectReference.mk "cool-resource" ""], fallback := false, err := none } :=
  FallBackForAnonymousTemplates_single_not_found exampleNotFoundStore "get"
    (ObjectReference.mk "cool-resource" "")
    (CompositionRequest.mk (CompositionRevision.mk [exampleNamed (some "bucket")]))
    (by decide) rfl

/-! ## The validation mode -/

/-- C25: `GetValidationMode` is a strict three-way resolution. Without the annotation, and so
without any annotation, it returns Loose and no error; with the annotation set to one of the two
recognized values it returns that value and no error; with the annotation set to any other string,
the empty string and "Strict" included, it returns an error whose message contains that string,
and a mode that is not the default. -/
theorem GetValidationMode_resolution (before after : String) (c : Composition) :
    (c.ObjectMeta.Annotations.lookup CompositionValidationModeAnnotation = none →
      GetValidationMode before after c =
        { mode := CompositionValidationModeLoose, err := none }) ∧
    (c.ObjectMeta.Annotations = [] →
      GetValidationMode before after c =
        { mode := CompositionValidationModeLoose, err := none }) ∧
    (∀ v, c.ObjectMeta.Annotations.lookup CompositionValidationModeAnnotation = some v →
      (v = CompositionValidationModeStrict ∨ v = CompositionValidationModeLoose) →
      GetValidationMode before after c = { mode := v, err := none }) ∧
    (∀ v, c.ObjectMeta.Annotations.lookup CompositionValidationModeAnnotation = some v →
      v ≠ CompositionValidationModeStrict → v ≠ CompositionValidationModeLoose →
      (GetValidationMode before after c).err = some (Err.new (before ++ v ++ after)) ∧
      (GetValidationMode before after c).mode ≠ CompositionValidationModeLoose) ∧
    (("" : String) ≠ CompositionValidationModeStrict ∧
      ("" : String) ≠ CompositionValidationModeLoose ∧
      ("Strict" : String) ≠ CompositionValidationModeStrict ∧
      ("Strict" : String) ≠ CompositionValidationModeLoose) := by
  refine ⟨?_, ?_, ?_, ?_, by decide⟩
  · intro h
    simp [GetValidationMode, h]
  · intro h
    simp [GetValidationMode, h]
  · intro v h hv
    simp [GetValidationMode, h, hv]
  · intro v h hs hl
    have hor : ¬ (v = CompositionValidationModeStrict ∨ v = CompositionValidationModeLoose) := by
      rintro (h1 | h1)
      · exact hs h1
      · exact hl h1
    have hout : GetValidationMode before after c =
        { mode := "", err := some (Err.new (before ++ v ++ after)) } := by
      unfold GetValidationMode
      rw [h]
      exact if_neg hor
    rw [hout]
    refine ⟨rfl, ?_⟩
    show ("" : String) ≠ CompositionValidationModeLoose
    decide

/-- Witness of C25 at the test case "InvalidValue". -/
theorem GetValidationMode_resolution_witness :
    (GetValidationMode "invalid mode: " ""
        (exampleAnnotated [( CompositionValidationModeAnnotation, "invalid")])).err =
      some (Err.new ("invalid mode: " ++ "invalid" ++ "")) ∧
    (GetValidationMode "invalid mode: " ""
        (exampleAnnotated [( CompositionValidationModeAnnotation, "invalid")])).mode ≠
      CompositionValidationModeLoose :=
  (GetValidationMode_resolution "invalid mode: " ""
    (exampleAnnotated [( CompositionValidationModeAnnotation, "invalid")])).2.2.2.1 "invalid"
    (by decide) (by decide) (by decide)

/-! ## Totality and synthetic names -/

/-- C26, at the failing inputs: `setTransformTypeRequiredFields` does not return for a transform
whose explicit `Type` is Math and whose `Math` sub-object is absent, nor for one whose explicit
`Type` is String and whose `String` sub-object is absent: the conditions of lines 367 and 371 read
the `Type` of the absent sub-object. `processFunctionInput` then does not return either. -/
theorem setTransformTypeRequiredFields_absent_sub_object :
    setTransformTypeRequiredFields
        { Type_ := "math", Math := none, Map := none, Match := none, String_ := none,
          Convert := none } = none ∧
    setTransformTypeRequiredFields
        { Type_ := "string", Math := none, Map := none, Match := none, String_ := none,
          Convert := none } = none ∧
    processFunctionInput (legacyInput exampleAbsentMath) = none := by
  decide

theorem digitChar_value (k : Nat) (hk : k < 10) : (Nat.digitChar k).toNat - 48 = k := by
  interval_cases k <;> decide

theorem digitsValue_toDigitsCore (f : Nat) : ∀ (n : Nat) (ds : List Char), n < f →
    digitsValue (Nat.toDigitsCore 10 f n ds) 0 = digitsValue ds n := by
  induction f with
  | zero =>
    intro n ds h
    omega
  | succ f ih =>
    intro n ds h
    have hd : (Nat.digitChar (n % 10)).toNat - 48 = n % 10 :=
      digitChar_value _ (Nat.mod_lt _ (by decide))
    simp only [Nat.toDigitsCore]
    split_ifs with h0
    · simp only [digitsValue, List.foldl_cons, hd]
      have : n % 10 = n := by omega
      simp [this]
    · have hlt : n / 10 < f := by omega
      rw [ih (n / 10) _ hlt]
      simp only [digitsValue, List.foldl_cons, hd]
      have : 10 * (n / 10) + n % 10 = n := Nat.div_add_mod n 10
      rw [this]

/-- The decimal form of a natural number determines the number. -/
theorem toString_nat_injective (i j : Nat) (h : (toString i : String) = toString j) : i = j := by
  have hi : (toString i : String) = String.mk (Nat.toDigits 10 i) := rfl
  have hj : (toString j : String) = String.mk (Nat.toDigits 10 j) := rfl
  rw [hi, hj] at h
  have hd : Nat.toDigits 10 i = Nat.toDigits 10 j := by injection h
  have h1 := digitsValue_toDigitsCore (i + 1) i [] (by omega)
  have h2 := digitsValue_toDigitsCore (j + 1) j [] (by omega)
  unfold Nat.toDigits at hd
  rw [hd, h2] at h1
  simpa [digitsValue] using h1.symm

theorem resource_name_injective (i j : Nat)
    (h : "resource-" ++ toString i = "resource-" ++ toString j) : i = j := by
  apply toString_nat_injective
  have h2 := congrArg String.data h
  simp only [String.data_append, List.append_cancel_left_eq] at h2
  exact String.ext h2

/-- C27: synthetic names are injective in the position. In the function input built by
`processFunctionInput`, two anonymous templates at different positions of the input list get
different names. The call returns exactly when no transform names an absent sub-object. -/
theorem processFunctionInput_synthetic_names_injective (input : Input) :
    (processFunctionInput input).isSome = input.safe ∧
    ∀ raw, processFunctionInput input = some raw →
      ∃ doc, raw.Object = some doc ∧
        ∀ (i j : Nat) (ti tj : LegacyComposedTemplate), i ≠ j →
          input.Resources[i]? = some ti → input.Resources[j]? = some tj →
          (ti.Name = none ∨ ti.Name = some "") → (tj.Name = none ∨ tj.Name = some "") →
          ∃ mi mj, doc.resources[i]? = some mi ∧ doc.resources[j]? = some mj ∧
            mi.ComposedTemplate.Name ≠ mj.ComposedTemplate.Name := by
  refine ⟨processFunctionInput_isSome input, ?_⟩
  intro raw h
  obtain ⟨doc, hdoc, _, hpt⟩ := processFunctionInput_resources input raw h
  refine ⟨doc, hdoc, ?_⟩
  intro i j ti tj hij hti htj hai haj
  obtain ⟨mi, hmi, hni, _, _⟩ := hpt i ti hti
  obtain ⟨mj, hmj, hnj, _, _⟩ := hpt j tj htj
  refine ⟨mi, mj, hmi, hmj, ?_⟩
  rw [hni, hnj, if_pos hai, if_pos haj]
  intro heq
  exact hij (resource_name_injective i j (Option.some.inj heq))

/-- Witness of C27 at `exampleTwoAnonymous`, whose two templates are anonymous. -/
theorem processFunctionInput_synthetic_names_injective_witness :
    ∃ doc, exampleTwoAnonymousRaw.Object = some doc ∧
      ∀ (i j : Nat) (ti tj : LegacyComposedTemplate), i ≠ j →
        exampleTwoAnonymous.Resources[i]? = some ti →
        exampleTwoAnonymous.Resources[j]? = some tj →
        (ti.Name = none ∨ ti.Name = some "") → (tj.Name = none ∨ tj.Name = some "") →
        ∃ mi mj, doc.resources[i]? = some mi ∧ doc.resources[j]? = some mj ∧
          mi.ComposedTemplate.Name ≠ mj.ComposedTemplate.Name :=
  (processFunctionInput_synthetic_names_injective exampleTwoAnonymous).2
    exampleTwoAnonymousRaw (by decide)

end Pipelinecomposition
